import Mathlib

/-!
Verification development for the ck3-tiger script analyzer.

This file gives a shallow embedding, in Lean 4, of the parts of the
analyzer that the accompanying claims are about:

* `src/data/characters.rs` — the character catalog (`Characters`,
  `Character`, gender checks, duplicate handling, deterministic
  validation order);
* `src/dds.rs` — the DDS texture header reader;
* `src/trigger.rs` — the recursive trigger validator
  (`validate_trigger_internal`, `validate_trigger_key_bv`,
  `match_trigger_bv`, `validate_target_ok_this`).

Collaborator modules that are not part of the sources (the report
channel, the scope context `context.rs`, the `Validator` helper, the
per-game descriptor tables) are modelled from the specification; each
such definition carries a doc comment starting with `Modelled from the
spec:`.  Everything translated directly from a source file keeps the
source's name where Lean allows it.
-/

namespace Tiger

/-- Severity of a report, from §6 of the spec: Fatal, Error, Warning,
Untidy, Advice.  The emission helpers of the report module (`fatal`,
`err`, `error`, `warn`, `old_warn`, `advice_info`, ...) each carry one
of these. -/
inductive Severity where
  | fatal
  | error
  | warning
  | untidy
  | advice
deriving DecidableEq, Repr

/-- Error keys used by the embedded code paths (the stable lint
identifiers of §6 of the spec). -/
inductive ErrorKey where
  | missingItem
  | wrongGender
  | validation
  | unknownField
  | scopes
  | macroErr
  | tooltip
  | ifElse
  | logic
  | bugs
  | removed
  | imageFormat
  | readError
  | useOfThis
  | duplicateItem
deriving DecidableEq, Repr

/-- Overlay kind of a file: larger numbers are higher-priority overlays
(mods override vanilla).  Mirrors the `kind` field of a location. -/
abbrev FileKind := Nat

/-- Location of a token: file identity, overlay kind, line, column. -/
structure Loc where
  file : String
  kind : FileKind
  line : Nat
  col : Nat
deriving DecidableEq, Repr

/-- An atomic lexeme: string content plus location. -/
structure Token where
  s : String
  loc : Loc
deriving DecidableEq, Repr

/-! ### Character-list string helpers

The Rust code uses `str` primitives (`split`, `split_once`,
`starts_with`, `to_lowercase`, ...).  These are given executable
models over the character list of the string, so that concrete
witnesses evaluate inside the kernel. -/

/-- Split a character list at every occurrence of the separator
(`str::split` semantics: n separators give n+1 pieces). -/
def splitChar (c : Char) : List Char → List (List Char)
  | [] => [[]]
  | x :: xs =>
      if x = c then [] :: splitChar c xs
      else
        match splitChar c xs with
        | [] => [[x]]
        | g :: gs => (x :: g) :: gs

/-- Join character-list pieces with the separator (inverse of
`splitChar`). -/
def joinChar (c : Char) : List (List Char) → List Char
  | [] => []
  | [g] => g
  | g :: gs => g ++ c :: joinChar c gs

/-- Model of `str::split` on one character, producing strings. -/
def strSplit (s : String) (c : Char) : List String :=
  (splitChar c s.data).map fun l => ⟨l⟩

/-- Model of `str::split_once`. -/
def strSplitOnce (s : String) (c : Char) : Option (String × String) :=
  match splitChar c s.data with
  | [] => none
  | [_] => none
  | p :: rest => some (⟨p⟩, ⟨joinChar c rest⟩)

/-- Model of `str::starts_with`. -/
def strStartsWith (s p : String) : Bool :=
  decide (s.data.take p.data.length = p.data)

/-- Model of `str::ends_with`. -/
def strEndsWith (s p : String) : Bool :=
  decide (s.data.drop (s.data.length - p.data.length) = p.data)
  && decide (p.data.length ≤ s.data.length)

/-- Model of `str::contains` on one character. -/
def strContainsChar (s : String) (c : Char) : Bool :=
  s.data.contains c

/-- Drop the first `n` characters (`str` slicing). -/
def strDrop (s : String) (n : Nat) : String := ⟨s.data.drop n⟩

/-- Drop the last `n` characters (`str::strip_suffix` slicing). -/
def strDropRight (s : String) (n : Nat) : String := ⟨s.data.take (s.data.length - n)⟩

/-- ASCII lower-casing of one character. -/
def charLower (c : Char) : Char :=
  if 'A' ≤ c ∧ c ≤ 'Z' then Char.ofNat (c.toNat + 32) else c

/-- ASCII upper-casing of one character. -/
def charUpper (c : Char) : Char :=
  if 'a' ≤ c ∧ c ≤ 'z' then Char.ofNat (c.toNat - 32) else c

/-- Model of `str::to_lowercase` (the keywords compared are ASCII). -/
def strToLower (s : String) : String := ⟨s.data.map charLower⟩

/-- Model of `str::to_uppercase`. -/
def strToUpper (s : String) : String := ⟨s.data.map charUpper⟩

/-- Model of `str::trim` (ASCII blanks). -/
def strTrim (s : String) : String :=
  ⟨((s.data.dropWhile (· = ' ')).reverse.dropWhile (· = ' ')).reverse⟩

/-- Join strings with a separator (`[T]::join`). -/
def strIntercalate (sep : String) : List String → String
  | [] => ""
  | [x] => x
  | x :: xs => x ++ sep ++ strIntercalate sep xs

/-- Decimal digit value of a character. -/
def digitVal (c : Char) : Option Nat :=
  if '0' ≤ c ∧ c ≤ '9' then some (c.toNat - '0'.toNat) else none

/-- Parse a character list as an unsigned decimal number. -/
def charsToNat : List Char → Option Nat
  | [] => none
  | l => l.foldl (fun acc c =>
      match acc, digitVal c with
      | some a, some d => some (a * 10 + d)
      | _, _ => none) (some 0)

/-- Model of an integer-literal test (optional sign, digits). -/
def strIsInteger (s : String) : Bool :=
  match s.data with
  | '-' :: rest => (charsToNat rest).isSome
  | l => (charsToNat l).isSome

/-- Model of an unsigned-literal test. -/
def strIsNat (s : String) : Bool := (charsToNat s.data).isSome

/-- A diagnostic record: severity, key, message, primary location,
optional secondary location with its own message, optional info. -/
structure Diag where
  sev : Severity
  key : ErrorKey
  msg : String
  loc : Loc
  loc2 : Option (Loc × String) := none
  info : Option String := none
deriving DecidableEq, Repr

/-- Comparator sub-tag of `=`, `==` and `?=` (block.rs `Eq`: Single,
Double, Question). -/
inductive EqStyle where
  | single
  | double
  | question
deriving DecidableEq, Repr

/-- Comparators of the script dialect (spec §3): `=`, `?=`, `==`, `!=`,
`<`, `<=`, `>`, `>=`. -/
inductive Comparator where
  | equals (e : EqStyle)
  | notEquals
  | lt
  | le
  | gt
  | ge
deriving DecidableEq, Repr

mutual
/-- A value: either a token or a block (spec §3, block.rs `BV`). -/
inductive BV where
  | value (t : Token)
  | block (b : Block)

/-- A block: its own location (the opening brace) and an ordered list
of items (spec §3). -/
inductive Block where
  | mk (loc : Loc) (items : List BlockItem)

/-- An item of a block: a field (key, comparator, value) or a bare
token (spec §3). -/
inductive BlockItem where
  | field (key : Token) (cmp : Comparator) (bv : BV)
  | bare (t : Token)
end

def Block.loc : Block → Loc
  | .mk l _ => l

def Block.items : Block → List BlockItem
  | .mk _ i => i

/-- Fields of a block, in order (block.rs `iter_fields`). -/
def Block.iter_fields (b : Block) : List (Token × Comparator × BV) :=
  b.items.filterMap fun
    | .field k c v => some (k, c, v)
    | .bare _ => none

/-- Modelled from the spec: `Block::get_field` of block.rs (absent from
src/) — the value of the last field with the given key. -/
def Block.get_field (b : Block) (name : String) : Option BV :=
  ((b.iter_fields.filter fun f => f.1.s = name).getLast?).map fun f => f.2.2

/-- Modelled from the spec: `Block::get_field_value` of block.rs
(absent from src/) — the last field with the given key, if its value is
a token. -/
def Block.get_field_value (b : Block) (name : String) : Option Token :=
  match b.get_field name with
  | some (.value t) => some t
  | _ => none

/-- Modelled from the spec: `Block::get_field_block` of block.rs
(absent from src/) — the last field with the given key, if its value is
a block. -/
def Block.get_field_block (b : Block) (name : String) : Option Block :=
  match b.get_field name with
  | some (.block bb) => some bb
  | _ => none

/-- Modelled from the spec: `Block::get_field_bool` of block.rs (absent
from src/) — the boolean value of a field whose value token is `yes` or
`no`; any other shape gives `none`. -/
def Block.get_field_bool (b : Block) (name : String) : Option Bool :=
  match b.get_field_value name with
  | some t => if t.s = "yes" then some true else if t.s = "no" then some false else none
  | none => none

/-- A date `YYYY.M.D` (date.rs, absent from src/; shape from spec
§4.L). -/
structure Date where
  year : Nat
  month : Nat
  day : Nat
deriving DecidableEq, Repr

/-- Lexicographic order on dates. -/
def Date.le (a b : Date) : Bool :=
  if a.year ≠ b.year then a.year < b.year
  else if a.month ≠ b.month then a.month < b.month
  else a.day ≤ b.day

/-- Modelled from the spec: `Date::try_from(token)` of date.rs (absent
from src/) — parse a `YYYY.M.D` date literal. -/
def parseDate (s : String) : Option Date :=
  match (strSplit s '.').map (fun p => charsToNat p.data) with
  | [some y, some m, some d] => some ⟨y, m, d⟩
  | _ => none

/-- Modelled from the spec: `Block::get_field_at_date(name, date)` of
block.rs (absent from src/) — character history blocks are keyed by
dates; this returns the value of field `name` inside the last date
block whose date is at or before the given date. -/
def Block.get_field_at_date (b : Block) (name : String) (date : Date) : Option BV :=
  (b.iter_fields.filterMap fun f =>
    match parseDate f.1.s, f.2.2 with
    | some d, .block bb => if d.le date then bb.get_field name else none
    | _, _ => none).getLast?

/-! ## Characters (`src/data/characters.rs`) -/

/-- Gender of a character (characters.rs). -/
inductive Gender where
  | male
  | female
deriving DecidableEq, Repr

/-- Translation of `Gender::from_female_bool`. -/
def Gender.from_female_bool (b : Bool) : Gender :=
  if b then .female else .male

/-- Translation of `Gender::flip`. -/
def Gender.flip : Gender → Gender
  | .male => .female
  | .female => .male

/-- Translation of the `Display` impl for `Gender`. -/
def Gender.display : Gender → String
  | .male => "male"
  | .female => "female"

/-- Translation of the `Character` struct: key token and defining
block. -/
structure Character where
  key : Token
  block : Block

/-- Translation of `Character::born_by`. -/
def Character.born_by (self : Character) (born_by : Option Date) : Bool :=
  match born_by with
  | some date => (self.block.get_field_at_date "birth" date).isSome
  | none => true

/-- Translation of `Character::gender`: the `female` field of the
block, defaulted to `false`, turned into a gender. -/
def Character.gender (self : Character) : Gender :=
  Gender.from_female_bool ((self.block.get_field_bool "female").getD false)

/-- Translation of the `Characters` catalog.  The `FnvHashMap` is
modelled as an association list (`get` looks up the first binding;
`load_item` replaces bindings, keeping the map semantics). -/
structure Characters where
  config_only_born : Option Date := none
  characters : List (String × Character) := []

/-- Map lookup on the modelled `FnvHashMap`. -/
def Characters.get (self : Characters) (k : String) : Option Character :=
  (self.characters.find? fun p => p.1 = k).map (·.2)

/-- Map insert on the modelled `FnvHashMap`: the new binding replaces
any existing binding for the key. -/
def charsInsert (l : List (String × Character)) (k : String) (v : Character) :
    List (String × Character) :=
  (k, v) :: l.filter fun p => ¬ p.1 = k

/-- Translation of `Characters::exists`. -/
def Characters.exists_ (self : Characters) (k : String) : Bool :=
  (self.get k).isSome

/-- Modelled from the spec: `dup_error` of helpers.rs (absent from
src/) — §4.I: a duplicate diagnostic pointing to both locations. -/
def dup_error (key other : Token) (id : String) : Diag :=
  ⟨.warning, .duplicateItem, s!"{id} is defined twice", key.loc,
    some (other.loc, s!"the other {id} is here"), none⟩

/-- Translation of `Characters::load_item`: emit a duplicate diagnostic
when a binding exists whose overlay kind is at least the new one's and
which passes the `only_born` filter; in every case insert the new
definition (last wins). -/
def Characters.load_item (self : Characters) (key : Token) (block : Block) :
    List Diag × Characters :=
  let diags :=
    match self.get key.s with
    | some other =>
        if other.key.loc.kind ≥ key.loc.kind ∧ other.born_by self.config_only_born then
          [dup_error key other.key "character"]
        else []
    | none => []
  (diags, { self with characters := charsInsert self.characters key.s ⟨key, block⟩ })

/-- Translation of `Characters::verify_exists_gender`: missing
character gives one `MissingItem` diagnostic, wrong gender one
`WrongGender` diagnostic, otherwise nothing. -/
def Characters.verify_exists_gender (self : Characters) (item : Token) (gender : Gender) :
    List Diag :=
  match self.get item.s with
  | some ch =>
      if gender ≠ ch.gender then
        [⟨.error, .wrongGender, s!"character is not {gender.display}", item.loc, none, none⟩]
      else []
  | none =>
      [⟨.error, .missingItem, "character not defined in history/characters/", item.loc,
        none, none⟩]

/-- External data consulted while validating characters.  `itemExists`
models `Everything`'s item lookup and `effectDiags` the effect
validator (`effect.rs`), both absent from src/ (modelled from the spec
as collaborator functions: item kinds are identified by their
snake-case name). -/
structure CharData where
  characters : Characters
  itemExists : String → String → Bool
  effectDiags : Block → List Diag

/-- Modelled from the spec: `verify_exists` of the item catalog (§4.I)
— emits a `MissingItem` diagnostic at the token when absent. -/
def verify_exists_item (data : CharData) (kind : String) (t : Token) : List Diag :=
  if data.itemExists kind t.s then [] else
    [⟨.error, .missingItem, s!"{kind} not defined", t.loc, none, none⟩]

/-- Location of a value (token location or block location). -/
def BV.loc : BV → Loc
  | .value t => t.loc
  | .block b => b.loc

/-- Fields of a block with the given key, in order. -/
def fieldsNamed (b : Block) (name : String) : List (Token × Comparator × BV) :=
  b.iter_fields.filter fun f => f.1.s = name

/-- Modelled from the spec: the `expected value` report of the
`Validator` (validator.rs, absent from src/). -/
def expectedValueDiag (l : Loc) : Diag :=
  ⟨.error, .validation, "expected value", l, none, none⟩

/-- Modelled from the spec: the `expected block` report of the
`Validator` (validator.rs, absent from src/). -/
def expectedBlockDiag (l : Loc) : Diag :=
  ⟨.error, .validation, "expected block", l, none, none⟩

/-- Modelled from the spec: `Validator::req_field` — one diagnostic
when no field with the key is present. -/
def vd_req_field (b : Block) (name : String) : List Diag :=
  if (fieldsNamed b name).isEmpty then
    [⟨.error, .validation, s!"required field {name} missing", b.loc, none, none⟩]
  else []

/-- Modelled from the spec: `Validator::req_field_warn` — like
`req_field` at warning severity. -/
def vd_req_field_warn (b : Block) (name : String) : List Diag :=
  if (fieldsNamed b name).isEmpty then
    [⟨.warning, .validation, s!"required field {name} missing", b.loc, none, none⟩]
  else []

/-- Modelled from the spec: `Validator::field_value` used as a plain
statement — fields with the key must have token values. -/
def vd_field_value_plain (b : Block) (name : String) : List Diag :=
  (fieldsNamed b name).flatMap fun f =>
    match f.2.2 with
    | .value _ => []
    | .block bb => [expectedValueDiag bb.loc]

/-- Modelled from the spec: `Validator::field_block` — fields with the
key must have block values. -/
def vd_field_block (b : Block) (name : String) : List Diag :=
  (fieldsNamed b name).flatMap fun f =>
    match f.2.2 with
    | .value t => [expectedBlockDiag t.loc]
    | .block _ => []

/-- Modelled from the spec: `Validator::field_value_item` — each value
field with the key is checked against the item catalog. -/
def vd_field_value_item (data : CharData) (b : Block) (name kind : String) : List Diag :=
  (fieldsNamed b name).flatMap fun f =>
    match f.2.2 with
    | .value t => verify_exists_item data kind t
    | .block bb => [expectedValueDiag bb.loc]

/-- Modelled from the spec: `Validator::field_values` — the value
tokens of all fields with the key. -/
def vd_field_values (b : Block) (name : String) : List Token :=
  (fieldsNamed b name).filterMap fun f =>
    match f.2.2 with
    | .value t => some t
    | .block _ => none

/-- Modelled from the spec: `Validator::field_bool` — value must be
`yes` or `no`. -/
def vd_field_bool (b : Block) (name : String) : List Diag :=
  (fieldsNamed b name).flatMap fun f =>
    match f.2.2 with
    | .value t =>
        if t.s = "yes" ∨ t.s = "no" then [] else
          [⟨.error, .validation, "expected yes or no", t.loc, none, none⟩]
    | .block bb => [expectedValueDiag bb.loc]

/-- Integer literal test (token.rs `is_number`-style, modelled). -/
def isIntegerStr (s : String) : Bool :=
  strIsInteger s

/-- Decimal literal test (modelled). -/
def isNumericStr (s : String) : Bool :=
  match strSplit s '.' with
  | [a] => strIsInteger a
  | [a, b] => strIsInteger a && strIsNat b
  | _ => false

/-- Modelled from the spec: `Validator::field_integer`. -/
def vd_field_integer (b : Block) (name : String) : List Diag :=
  (fieldsNamed b name).flatMap fun f =>
    match f.2.2 with
    | .value t =>
        if isIntegerStr t.s then [] else
          [⟨.error, .validation, "expected integer", t.loc, none, none⟩]
    | .block bb => [expectedValueDiag bb.loc]

/-- Modelled from the spec: `Validator::field_numeric`. -/
def vd_field_numeric (b : Block) (name : String) : List Diag :=
  (fieldsNamed b name).flatMap fun f =>
    match f.2.2 with
    | .value t =>
        if isNumericStr t.s then [] else
          [⟨.error, .validation, "expected number", t.loc, none, none⟩]
    | .block bb => [expectedValueDiag bb.loc]

/-- Modelled from the spec: `Validator::field_choice`. -/
def vd_field_choice (b : Block) (name : String) (choices : List String) : List Diag :=
  (fieldsNamed b name).flatMap fun f =>
    match f.2.2 with
    | .value t =>
        if choices.contains t.s then [] else
          [⟨.error, .validation, s!"unknown value {t.s} for {name}", t.loc, none, none⟩]
    | .block bb => [expectedValueDiag bb.loc]

/-- Translation of `SEXUALITIES` (characters.rs). -/
def SEXUALITIES : List String :=
  ["heterosexual", "homosexual", "bisexual", "asexual"]

/-- Modelled from the spec: `validate_prefix_reference_token` of
validate.rs (absent from src/) — a reference that may carry a
`kind:` marker is checked against the catalog. -/
def validate_pfx_reference_token (data : CharData) (t : Token) (kind : String) : List Diag :=
  let name := if strStartsWith t.s (kind ++ ":") then strDrop t.s (kind.length + 1) else t.s
  if data.itemExists kind name then [] else
    [⟨.error, .missingItem, s!"{kind} not defined", t.loc, none, none⟩]

/-- Gender expected of the subject character in a history block: from
the enclosing (parent) block's `female` field, defaulted to false
(characters.rs `validate_history`, line computing `gender`). -/
def history_gender (parent : Block) : Gender :=
  Gender.from_female_bool ((parent.get_field_bool "female").getD false)

/-- Translation of `Character::validate_history` (characters.rs).  The
effect-validation calls at the end go to the modelled collaborator
`effectDiags`. -/
def Character.validate_history (block parent : Block) (data : CharData) : List Diag :=
  vd_field_value_item data block "name" "localization"
  ++ vd_field_value_plain block "birth"
  ++ vd_field_value_item data block "religion" "faith"
  ++ vd_field_value_item data block "faith" "faith"
  ++ ((block.get_field_value "set_character_faith").map
        (fun t => validate_pfx_reference_token data t "faith")).getD []
  ++ vd_field_value_item data block "employer" "character"
  ++ vd_field_value_plain block "culture"
  ++ vd_field_value_plain block "set_culture"
  ++ vd_field_value_item data block "trait" "trait"
  ++ vd_field_value_item data block "add_trait" "trait"
  ++ vd_field_value_item data block "remove_trait" "trait"
  ++ (vd_field_values block "add_pressed_claim").flatMap
      (fun t => validate_pfx_reference_token data t "title")
  ++ (vd_field_values block "remove_claim").flatMap
      (fun t => validate_pfx_reference_token data t "title")
  ++ ((block.get_field_value "capital").map (fun t =>
        verify_exists_item data "title" t
        ++ if ¬ strStartsWith t.s "c_" then
            [⟨.error, .validation, "capital must be a county", t.loc, none, none⟩]
          else [])).getD []
  ++ (let gender := history_gender parent
      (vd_field_values block "add_spouse").flatMap
        (fun t => data.characters.verify_exists_gender t gender.flip)
      ++ (vd_field_values block "add_matrilineal_spouse").flatMap
          (fun t => data.characters.verify_exists_gender t gender.flip)
      ++ (vd_field_values block "add_same_sex_spouse").flatMap
          (fun t => data.characters.verify_exists_gender t gender)
      ++ (vd_field_values block "add_concubine").flatMap
          (fun t => data.characters.verify_exists_gender t gender.flip)
      ++ (vd_field_values block "remove_spouse").flatMap
          (fun t => data.characters.verify_exists_gender t gender.flip))
  ++ vd_field_value_item data block "dynasty" "dynasty"
  ++ vd_field_value_item data block "dynasty_house" "house"
  ++ (fieldsNamed block "effect").flatMap (fun f =>
        match f.2.2 with
        | .block bb => data.effectDiags bb
        | .value t => [expectedBlockDiag t.loc])
  ++ data.effectDiags block

/-- The fields of a character block claimed by `Character::validate`
before `warn_remaining` runs (all the explicitly validated names, plus
the date-keyed history blocks). -/
def charClaimedField (name : String) : Bool :=
  name ∈ ["name", "dna", "female", "martial", "prowess", "diplomacy", "intrigue",
    "stewardship", "learning", "trait", "father", "mother", "disallow_random_traits",
    "religion", "faith", "culture", "dynasty", "dynasty_house", "give_nickname",
    "sexuality", "health", "fertility", "portrait_override"]
  ∨ (parseDate name).isSome

/-- Modelled from the spec: `Validator::warn_remaining` — one
`UnknownField` warning per unclaimed field. -/
def vd_warn_remaining (b : Block) : List Diag :=
  b.iter_fields.flatMap fun f =>
    if charClaimedField f.1.s then [] else
      [⟨.warning, .unknownField, s!"unknown field {f.1.s}", f.1.loc, none, none⟩]

/-- Translation of `Character::validate` (characters.rs): the field
checks in source order, the history blocks via `validate_history`, and
`warn_remaining`. -/
def Character.validate (self : Character) (data : CharData) : List Diag :=
  let b := self.block
  vd_req_field b "name"
  ++ vd_field_value_item data b "name" "localization"
  ++ vd_field_value_plain b "dna"
  ++ vd_field_bool b "female"
  ++ vd_field_integer b "martial"
  ++ vd_field_integer b "prowess"
  ++ vd_field_integer b "diplomacy"
  ++ vd_field_integer b "intrigue"
  ++ vd_field_integer b "stewardship"
  ++ vd_field_integer b "learning"
  ++ vd_field_value_item data b "trait" "trait"
  ++ ((b.get_field_value "father").map
        (fun ch => data.characters.verify_exists_gender ch .male)).getD []
  ++ ((b.get_field_value "mother").map
        (fun ch => data.characters.verify_exists_gender ch .female)).getD []
  ++ vd_field_bool b "disallow_random_traits"
  ++ vd_field_value_item data b "religion" "faith"
  ++ vd_field_value_item data b "faith" "faith"
  ++ vd_field_value_plain b "culture"
  ++ vd_field_value_item data b "dynasty" "dynasty"
  ++ vd_field_value_item data b "dynasty_house" "house"
  ++ vd_field_value_plain b "give_nickname"
  ++ vd_field_choice b "sexuality" SEXUALITIES
  ++ vd_field_numeric b "health"
  ++ vd_field_numeric b "fertility"
  ++ vd_field_block b "portrait_override"
  ++ b.iter_fields.flatMap (fun f =>
      match parseDate f.1.s, f.2.2 with
      | some _, .block bb => Character.validate_history bb b data
      | some _, .value t => [expectedBlockDiag t.loc]
      | none, _ => [])
  ++ vd_warn_remaining b

/-- The sort key of a location: the `Ord` derive on `Loc` is the
lexicographic order over (file identity, overlay kind, line,
column). -/
def locKey (l : Loc) : Lex (String × Lex (Nat × Lex (Nat × Nat))) :=
  toLex (l.file, toLex (l.kind, toLex (l.line, l.col)))

/-- Total order on locations used as the sort key of
`Characters::validate`. -/
def locLE (a b : Loc) : Bool := decide (locKey a ≤ locKey b)

/-- Translation of `Characters::validate`: collect the characters,
sort them by their key's location, and validate those passing the
`only_born` filter, in that order. -/
def Characters.validate (self : Characters) (data : CharData) : List Diag :=
  let vec := self.characters.map (·.2)
  let sorted := vec.mergeSort fun a b => locLE a.key.loc b.key.loc
  sorted.flatMap fun item =>
    if item.born_by self.config_only_born then item.validate data else []

/-! ## DDS texture headers (`src/dds.rs`) -/

/-- Translation of `DDS_HEADER_SIZE` (dds.rs): the number of bytes
`load_dds` reads from the start of the file. -/
def DDS_HEADER_SIZE : Nat := 124

/-- Translation of `DDS_HEIGHT_OFFSET`. -/
def DDS_HEIGHT_OFFSET : Nat := 12

/-- Translation of `DDS_WIDTH_OFFSET`. -/
def DDS_WIDTH_OFFSET : Nat := 16

/-- Translation of `from_le32` (dds.rs): the little-endian 32-bit
value at the given byte offset. -/
def from_le32 (buffer : List Nat) (offset : Nat) : Nat :=
  buffer.getD offset 0
    ||| (buffer.getD (offset + 1) 0 <<< 8)
    ||| (buffer.getD (offset + 2) 0 <<< 16)
    ||| (buffer.getD (offset + 3) 0 <<< 24)

/-- Translation of `DdsInfo` (dds.rs). -/
structure DdsInfo where
  width : Nat
  height : Nat
deriving DecidableEq, Repr

/-- Translation of `DdsInfo::new`: height from offset 12, width from
offset 16. -/
def DdsInfo.new (header : List Nat) : DdsInfo :=
  { width := from_le32 header DDS_WIDTH_OFFSET,
    height := from_le32 header DDS_HEIGHT_OFFSET }

/-- Outcome of `DdsFiles::load_dds` on one file: the `read_exact` call
failed (fewer bytes than the header size — `handle_file` then reports
`ReadError`), or the magic check failed (an `ImageFormat` diagnostic
and the file is not recorded), or the texture info that is recorded. -/
inductive DdsLoad where
  | ioError
  | skipped (d : Diag)
  | loaded (info : DdsInfo)
deriving DecidableEq, Repr

/-- The four magic bytes `DDS ` (0x44 0x44 0x53 0x20). -/
def ddsMagic : List Nat := [0x44, 0x44, 0x53, 0x20]

/-- Translation of `DdsFiles::load_dds` (dds.rs): read exactly
`DDS_HEADER_SIZE` bytes, require the `DDS ` magic, and record width
and height from the fixed offsets. -/
def load_dds (entryLoc : Loc) (bytes : List Nat) : DdsLoad :=
  if bytes.length < DDS_HEADER_SIZE then .ioError
  else
    let buffer := bytes.take DDS_HEADER_SIZE
    if buffer.take 4 = ddsMagic then .loaded (DdsInfo.new buffer)
    else .skipped ⟨.warning, .imageFormat, "not a DDS file", entryLoc, none, none⟩

/-- Stated from the claim's words (for comparison with `load_dds`): a
reader that takes the first 128 bytes as the header, with the same
magic check and field offsets. -/
def load_dds_as_claimed (entryLoc : Loc) (bytes : List Nat) : DdsLoad :=
  if bytes.length < 128 then .ioError
  else
    let buffer := bytes.take 128
    if buffer.take 4 = ddsMagic then .loaded (DdsInfo.new buffer)
    else .skipped ⟨.warning, .imageFormat, "not a DDS file", entryLoc, none, none⟩

/-! ## Scope sets and the scope context

The scope-set bitmask (`scopes.rs`) and the scope context
(`context.rs`) are not among the sources; they are modelled from the
spec (§3 "Scope set", §4.S, §9 "Scope set as bitmask"). -/

/-- Modelled from the spec: the domain object types of the scope-set
bitmask (§3 lists ~40; the subset relevant to the embedded code paths
is kept, including the distinguished `None` type). -/
inductive ScopeType where
  | none_
  | value
  | bool_
  | flag
  | character
  | landedTitle
  | faith
  | culture
  | province
deriving DecidableEq, Repr

instance : Fintype ScopeType :=
  ⟨⟨{.none_, .value, .bool_, .flag, .character, .landedTitle, .faith, .culture, .province},
    by decide⟩, by intro x; cases x <;> decide⟩

/-- A scope set: a set of possible runtime types (spec §3). -/
abbrev Scopes := Finset ScopeType

/-- The `Scopes::None` constant: the single `None` bit. -/
def scopesNone : Scopes := {ScopeType.none_}

/-- The `Scopes::all()` constant. -/
def scopesAll : Scopes := Finset.univ

/-- The `Scopes::Value` constant. -/
def scopesValue : Scopes := {ScopeType.value}

/-- The `Scopes::Bool` constant. -/
def scopesBool : Scopes := {ScopeType.bool_}

/-- Modelled from the spec: `Scopes::primitive()` — Value, Bool and
Flag. -/
def scopesPrimitive : Scopes := {ScopeType.value, ScopeType.bool_, ScopeType.flag}

/-- Modelled from the spec: `Scopes::non_primitive()` — everything but
`None` and the primitives. -/
def scopesNonPrimitive : Scopes := scopesAll \ (scopesNone ∪ scopesPrimitive)

/-- Translation of `Scopes::intersects`. -/
def Scopes.intersects (a b : Scopes) : Bool := decide (a ∩ b ≠ ∅)

/-- Translation of `Scopes::contains` on a single type (bit test). -/
def Scopes.containsType (a : Scopes) (t : ScopeType) : Bool := decide (t ∈ a)

/-- Display name of a scope type (the `Display` impl of scopes.rs,
modelled). -/
def ScopeType.display : ScopeType → String
  | .none_ => "none"
  | .value => "value"
  | .bool_ => "bool"
  | .flag => "flag"
  | .character => "character"
  | .landedTitle => "landed_title"
  | .faith => "faith"
  | .culture => "culture"
  | .province => "province"

/-- Canonical enumeration order of scope types, used for display. -/
def scopeTypeList : List ScopeType :=
  [.none_, .value, .bool_, .flag, .character, .landedTitle, .faith, .culture, .province]

/-- Display of a scope set (modelled): member names joined by
" or ". -/
def Scopes.display (s : Scopes) : String :=
  strIntercalate " or " ((scopeTypeList.filter (· ∈ s)).map ScopeType.display)

/-- Message fragment of a `Reason` (context.rs `Reason::msg`,
modelled): reasons in the embedded paths are always `Reason::Token`. -/
def reasonMsg (t : Token) : String := s!"set by {t.s}"

/-- One entry of the symbolic stack: a scope set and the token that
caused it to be inferred (spec §4.S). -/
structure ScEntry where
  scopes : Scopes
  reason : Token
deriving DecidableEq

/-- Modelled from the spec (§4.S): the state of a scope context —
current entry, previous chain, root entry, named-scope table,
named-list table. -/
structure ScState where
  current : ScEntry
  prevStack : List ScEntry
  root : ScEntry
  named : List (String × ScEntry)
  lists : List String
deriving DecidableEq

/-- Modelled from the spec (§4.S): a scope context is its state plus a
stack of snapshots pushed by `open_builder` / `open_scope`; the spec's
invariant "every matched `open_*` / `close` pair restores `scopes()`,
root, prev, and the named-scope table to their prior state" is realised
by restoring the snapshot on `close`.  The `Bool` marks whether the
frame is still a tentative builder. -/
structure ScopeContext where
  st : ScState
  saves : List (Bool × ScState)
deriving DecidableEq

namespace ScopeContext

/-- Modelled from the spec: `ScopeContext::new(root_scope_set,
root_reason)`. -/
def new (s : Scopes) (tok : Token) : ScopeContext :=
  ⟨⟨⟨s, tok⟩, [], ⟨s, tok⟩, [], []⟩, []⟩

/-- Modelled from the spec: `scopes()` — the current scope set. -/
def scopes (c : ScopeContext) : Scopes := c.st.current.scopes

/-- Modelled from the spec: `scopes_reason()` — the current scope set
with its reason. -/
def scopes_reason (c : ScopeContext) : Scopes × Token :=
  (c.st.current.scopes, c.st.current.reason)

/-- Replace the current entry. -/
def setCurrent (c : ScopeContext) (e : ScEntry) : ScopeContext :=
  { c with st := { c.st with current := e } }

/-- Modelled from the spec: `expect(set, reason)` — a `None` (no
constraint) set is the identity; otherwise the current set is narrowed
to the intersection, and an empty intersection emits a two-location
`Scopes` diagnostic (the current set is then replaced by the expected
set so validation can continue). -/
def expect (c : ScopeContext) (set : Scopes) (reason : Token) : List Diag × ScopeContext :=
  if set = scopesNone then ([], c)
  else
    let cur := c.st.current
    let inter := cur.scopes ∩ set
    if inter = ∅ then
      ([⟨.warning, .scopes,
          s!"scope is {cur.scopes.display} but {set.display} is expected",
          reason.loc, some (cur.reason.loc, s!"scope was {reasonMsg cur.reason}"), none⟩],
        setCurrent c ⟨set, reason⟩)
    else ([], setCurrent c ⟨inter, cur.reason⟩)

/-- Modelled from the spec: `open_builder` — push a tentative copy of
the state; replacements inside update the top without pushing. -/
def open_builder (c : ScopeContext) : ScopeContext :=
  ⟨c.st, (true, c.st) :: c.saves⟩

/-- Modelled from the spec: `finalize_builder` — the tentative top
becomes permanent for the nested validation (the frame keeps its
snapshot so the matching `close` still restores). -/
def finalize_builder (c : ScopeContext) : ScopeContext :=
  match c.saves with
  | (_, st0) :: rest => ⟨c.st, (false, st0) :: rest⟩
  | [] => c

/-- Modelled from the spec: `close` — restore the snapshot of the
innermost open frame. -/
def close (c : ScopeContext) : ScopeContext :=
  match c.saves with
  | (_, st0) :: rest => ⟨st0, rest⟩
  | [] => c

/-- Modelled from the spec: `open_scope(set, reason)` — enter a nested
block that begins in a new subject; the old current is pushed onto the
previous chain. -/
def open_scope (c : ScopeContext) (set : Scopes) (tok : Token) : ScopeContext :=
  ⟨{ c.st with current := ⟨set, tok⟩, prevStack := c.st.current :: c.st.prevStack },
    (false, c.st) :: c.saves⟩

/-- Modelled from the spec: `replace(set, reason)`. -/
def replace (c : ScopeContext) (set : Scopes) (tok : Token) : ScopeContext :=
  setCurrent c ⟨set, tok⟩

/-- Modelled from the spec: `replace_root`. -/
def replace_root (c : ScopeContext) : ScopeContext := setCurrent c c.st.root

/-- Modelled from the spec: `replace_prev`. -/
def replace_prev (c : ScopeContext) : ScopeContext :=
  setCurrent c (c.st.prevStack.headD c.st.root)

/-- Modelled from the spec: `replace_this`. -/
def replace_this (c : ScopeContext) : ScopeContext := c

/-- Modelled from the spec: `replace_named_scope(name, token)` — the
current entry becomes the saved set of the named scope (unconstrained
when the name is unknown). -/
def replace_named_scope (c : ScopeContext) (name : String) (tok : Token) : ScopeContext :=
  match c.st.named.find? (fun p => p.1 = name) with
  | some p => setCurrent c ⟨p.2.scopes, tok⟩
  | none => setCurrent c ⟨scopesAll, tok⟩

/-- Modelled from the spec: `exists_scope(name, token)` — mark the
name as existing (unconstrained) unless already known. -/
def exists_scope (c : ScopeContext) (name : String) (tok : Token) : ScopeContext :=
  if (c.st.named.find? (fun p => p.1 = name)).isSome then c
  else { c with st := { c.st with named := (name, ⟨scopesAll, tok⟩) :: c.st.named } }

/-- Modelled from the spec: `save_current_scope(name)`. -/
def save_current_scope (c : ScopeContext) (name : String) : ScopeContext :=
  { c with st := { c.st with named := (name, c.st.current) :: c.st.named } }

/-- Modelled from the spec: `define_name_token(name, set, token)`. -/
def define_name_token (c : ScopeContext) (name : String) (set : Scopes) (tok : Token) :
    ScopeContext :=
  { c with st := { c.st with named := (name, ⟨set, tok⟩) :: c.st.named } }

/-- Modelled from the spec: `define_or_expect_list(name)`. -/
def define_or_expect_list (c : ScopeContext) (tok : Token) : ScopeContext :=
  if c.st.lists.contains tok.s then c
  else { c with st := { c.st with lists := tok.s :: c.st.lists } }

/-- Modelled from the spec: `expect_list(name)` — warn when the list
is unknown. -/
def expect_list (c : ScopeContext) (tok : Token) : List Diag :=
  if c.st.lists.contains tok.s then []
  else [⟨.warning, .validation, s!"list {tok.s} is not defined", tok.loc, none, none⟩]

/-- Modelled from the spec: `must_be(set)`. -/
def must_be (c : ScopeContext) (set : Scopes) : Bool := c.st.current.scopes = set

/-- Modelled from the spec: `can_be(set)`. -/
def can_be (c : ScopeContext) (set : Scopes) : Bool :=
  Scopes.intersects c.st.current.scopes set

end ScopeContext

/-! ## Trigger descriptors and collaborator data (`src/trigger.rs`) -/

/-- Translation of the `Trigger` enum (trigger.rs), in its ck3
configuration (the `vic3`-only variants are absent when the ck3 feature
is selected).  Item kinds are identified by their snake-case name. -/
inductive Trigger where
  | boolean
  | compareValue
  | compareValueWarnEq
  | setValue
  | compareDate
  | scope (s : Scopes)
  | scopeOkThis (s : Scopes)
  | item (i : String)
  | scopeOrItem (s : Scopes) (i : String)
  | choice (cs : List String)
  | block (fields : List (String × Trigger))
  | scopeOrBlock (s : Scopes) (fields : List (String × Trigger))
  | itemOrBlock (i : String) (fields : List (String × Trigger))
  | compareValueOrBlock (fields : List (String × Trigger))
  | scopeList (s : Scopes)
  | scopeCompare (s : Scopes)
  | compareToScope (s : Scopes)
  | control
  | special
  | uncheckedValue

/-- A scripted trigger as far as `validate_trigger_key_bv` observes
it: its declared macro parameters (`macro_parms`). -/
structure ScriptedTrigger where
  macroParms : List String
deriving DecidableEq, Repr

/-- Three-valued tooltip flag (tooltipped.rs, shape from spec §4.V). -/
inductive Tooltipped where
  | yes
  | failuresOnly
  | no
deriving DecidableEq, Repr

/-- Translation of `Tooltipped::is_tooltipped`. -/
def Tooltipped.is_tooltipped : Tooltipped → Bool
  | .no => false
  | _ => true

/-- The external data consulted by the trigger validator.  The
scripted-trigger store, item catalog, and the per-game descriptor
tables (`scope_to_scope`, `scope_prefix`, `scope_trigger`,
`scope_iterator`, `scope_trigger_special_value`, `needs_prefix`) are
data/tables absent from src/; they are modelled from the spec as
fields of this structure (§4.T, §4.V). -/
structure Everything where
  /-- `data.get_trigger(key)`: scripted trigger lookup. -/
  getTrigger : String → Option ScriptedTrigger
  /-- `data.script_values.exists(name)`. -/
  scriptValueExists : String → Bool
  /-- `data.item_exists(kind, key)` / `verify_exists` routing. -/
  itemExists : String → String → Bool
  /-- the scope-to-scope transition table, given the current scopes. -/
  scopeToScope : String → Scopes → Option (Scopes × Scopes)
  /-- the `scope_prefix` table (`prefix:arg` transitions). -/
  scopePfxTable : String → Option (Scopes × Scopes)
  /-- the per-game trigger descriptor table. -/
  scopeTrigger : String → Option (Scopes × Trigger)
  /-- the iterator descriptor table, given the scope context. -/
  scopeIterator : String → ScopeContext → Option (Scopes × Scopes)
  /-- the special-value table used by `handle_argument`. -/
  scopeTriggerSpecialValue : String → Option (Scopes × Trigger)
  /-- `needs_prefix(name, data, outscopes)`: a suggested prefix. -/
  needsPfx : String → Scopes → Option String

/-- Observable actions of the validator besides diagnostics: calls
into collaborator validators whose bodies are outside the embedded
sources are recorded as events (modelled from the spec). -/
inductive Event where
  | diag (d : Diag)
  | scriptValue (l : Loc)
  | descValidation (l : Loc)
  | scriptedCall (key : String) (negated : Bool)
  | macroExpansion (key : String) (args : List (String × String)) (negated : Bool)
  | scriptValueCall (name : String) (l : Loc)
  | triggerLocUse (text : String) (tooltipped : Tooltipped) (negated : Bool)
  | geneTemplate (category : String) (template : String)
  | pfxReference (p : String) (arg : String)
deriving DecidableEq, Repr

/-- Result of one validator entry: emitted events in order, the scope
context after the call, and the side-effect bit. -/
structure VRes where
  ev : List Event
  sc : ScopeContext
  side : Bool
deriving DecidableEq

/-- Rank of a severity for capping. -/
def Severity.rank : Severity → Nat
  | .fatal => 4
  | .error => 3
  | .warning => 2
  | .untidy => 1
  | .advice => 0

/-- Modelled from the spec: the maximum-severity cap of
`Validator::set_max_severity` (§4.V "Max severity"): reports above the
cap are demoted. -/
def Severity.cap (s maxSev : Severity) : Severity :=
  if maxSev.rank < s.rank then maxSev else s

/-- Display of a comparator (block.rs `Display`). -/
def Comparator.display : Comparator → String
  | .equals .single => "="
  | .equals .question => "?="
  | .equals .double => "=="
  | .notEquals => "!="
  | .lt => "<"
  | .le => "<="
  | .gt => ">"
  | .ge => ">="

/-- Token content test (`Token::is`, case-sensitive). -/
def Token.is (t : Token) (s : String) : Bool := t.s = s

/-- Modelled `Token::is_number` (token.rs, absent from src/). -/
def Token.is_number (t : Token) : Bool := isNumericStr t.s

/-- Token splitting on a character (`Token::split`): part tokens keep
the source token's location (the source adjusts columns; the claims do
not depend on intra-token columns, so the location is shared). -/
def Token.splitParts (t : Token) (c : Char) : List Token :=
  (strSplit t.s c).map fun p => ⟨p, t.loc⟩

/-- Events of a `Validator::ban_field` call (modelled from the spec):
one warning per present field with the banned key. -/
def banFieldEvents (b : Block) (name : String) (only : String) (maxSev : Severity) :
    List Event :=
  (fieldsNamed b name).map fun f =>
    .diag ⟨Severity.cap .warning maxSev, .validation,
      s!"`{name}` is only for {only}", f.1.loc, none, none⟩

/-- Modelled from the spec: `verify_exists_max_sev` of the item
catalog — a `MissingItem` report at the kind's default severity
(Error), demoted to the cap. -/
def verify_exists_max_sev (data : Everything) (kind : String) (t : Token)
    (maxSev : Severity) : List Event :=
  if data.itemExists kind t.s then [] else
    [.diag ⟨Severity.cap .error maxSev, .missingItem, s!"{kind} not defined", t.loc,
      none, none⟩]

/-- Modelled from the spec: plain `verify_exists` (no cap). -/
def verify_exists_ev (data : Everything) (kind : String) (t : Token) : List Event :=
  verify_exists_max_sev data kind t .fatal

/-! ## Report-emission helpers (report.rs is absent from src/; severities
are modelled from the helper names and the spec's severity list). -/

/-- Modelled from the spec: `old_warn` / `warn` — a Warning report. -/
def oldWarnEv (l : Loc) (k : ErrorKey) (msg : String) : Event :=
  .diag ⟨.warning, k, msg, l, none, none⟩

/-- Modelled from the spec: `error` / `err(..).push()` — an Error
report. -/
def errEv (l : Loc) (k : ErrorKey) (msg : String) : Event :=
  .diag ⟨.error, k, msg, l, none, none⟩

/-- Modelled from the spec: `fatal(..).push()` — a Fatal report. -/
def fatalEv (l : Loc) (k : ErrorKey) (msg : String) : Event :=
  .diag ⟨.fatal, k, msg, l, none, none⟩

/-- Modelled from the spec: `warn_info` — a Warning report with an
info string. -/
def warnInfoEv (l : Loc) (k : ErrorKey) (msg info : String) : Event :=
  .diag ⟨.warning, k, msg, l, none, some info⟩

/-- Modelled from the spec: `advice_info` — an Advice report with an
info string. -/
def adviceInfoEv (l : Loc) (k : ErrorKey) (msg info : String) : Event :=
  .diag ⟨.advice, k, msg, l, none, some info⟩

/-- Modelled from the spec: the `expected value` report of
`BV::expect_value`. -/
def expectedValueEv (l : Loc) : Event :=
  .diag ⟨.error, .validation, "expected value", l, none, none⟩

/-- Modelled from the spec: the `expected block` report of
`BV::expect_block`. -/
def expectedBlockEv (l : Loc) : Event :=
  .diag ⟨.error, .validation, "expected block", l, none, none⟩

/-- `ScopeContext::expect` with the diagnostics wrapped as events. -/
def expectEv (sc : ScopeContext) (set : Scopes) (reason : Token) :
    List Event × ScopeContext :=
  let (d, sc') := sc.expect set reason
  (d.map .diag, sc')

/-- Modelled from the spec: `Validator::req_field` (capped). -/
def vd_req_field_ev (b : Block) (name : String) (maxSev : Severity) : List Event :=
  if (fieldsNamed b name).isEmpty then
    [.diag ⟨Severity.cap .error maxSev, .validation, s!"required field {name} missing",
      b.loc, none, none⟩]
  else []

/-- Modelled from the spec: `Validator::req_field_warn` (capped). -/
def vd_req_field_warn_ev (b : Block) (name : String) (maxSev : Severity) : List Event :=
  if (fieldsNamed b name).isEmpty then
    [.diag ⟨Severity.cap .warning maxSev, .validation, s!"required field {name} missing",
      b.loc, none, none⟩]
  else []

/-- Translation of the tooltip-complexity check at the head of
`validate_trigger_internal` (trigger.rs lines 114-129). -/
def tooltipComplexityEvents (caller : String) (negated : Bool) (tooltipped : Tooltipped)
    (blockLoc : Loc) : List Event :=
  if tooltipped = .failuresOnly ∧
      ((negated ∧ (caller = "and" ∨ caller = "nand")) ∨
        (¬ negated ∧ (caller = "or" ∨ caller = "nor" ∨ caller = "all_false"))) then
    let true_negated :=
      if caller = "nor" ∨ caller = "all_false" ∨ caller = "and" then "negated " else ""
    let msg := s!"{true_negated}{strToUpper caller} is a too complex trigger to be tooltipped in a trigger that shows failures only."
    let info := "Try adding a custom_description or custom_tooltip, or simplifying the trigger"
    [warnInfoEv blockLoc .tooltip msg info]
  else []

/-- The `ListType` of validate.rs (absent from src/; shape from the
spec's iterator taxonomy). -/
inductive ListType where
  | none_
  | any
  | every
  | ordered
  | random
deriving DecidableEq, Repr

/-- Modelled from the spec: `validate_iterator_fields` together with
`validate_inside_iterator` (validate.rs, absent from src/) — §4.V item
2's iterator-specific sub-fields are banned outside lists; inside an
`any_` list `count` and `percent` are claimed (their validation is
recorded by `precheck_iterator_fields`), and the `ordered_`/`random_`
only fields are banned. -/
def validate_iterator_fields_model (listType : ListType) (b : Block) (maxSev : Severity) :
    List Event :=
  match listType with
  | .none_ =>
      ["count", "percent", "order_by", "position", "min", "max"].flatMap fun nm =>
        banFieldEvents b nm "lists" maxSev
  | _ =>
      ["order_by", "position", "min", "max"].flatMap fun nm =>
        banFieldEvents b nm "`ordered_` or `random_` lists" maxSev

/-- Modelled from the spec: `precheck_iterator_fields` (validate.rs,
absent from src/) — §4.V item 2: pre-scan the iterator block's
script-value sub-fields before the scope is opened. -/
def precheck_iterator_fields_model (b : Block) : List Event :=
  ["count", "percent"].flatMap fun nm =>
    (fieldsNamed b nm).map fun f => Event.scriptValue f.2.2.loc

/-- Modelled from the spec: `validate_ifelse_sequence` (validate.rs,
absent from src/) — an `else_if`/`else` key must directly follow an
`if` or `else_if` field. -/
def validate_ifelse_sequence (b : Block) (ifK elifK elseK : String) : List Event :=
  (b.iter_fields.foldl
    (fun (acc : List Event × Option String) f =>
      let k := f.1.s
      let evs :=
        if (k = elifK ∨ k = elseK) ∧ ¬ (acc.2 = some ifK ∨ acc.2 = some elifK) then
          [oldWarnEv f.1.loc .ifElse s!"`{k}` without preceding `{ifK}`"]
        else []
      (acc.1 ++ evs, some k))
    ([], none)).1

/-- Whether `caller` is one of the `trigger_if` family. -/
def isTIF (caller : String) : Bool :=
  caller = "trigger_if" ∨ caller = "trigger_else_if" ∨ caller = "trigger_else"

/-- The fields claimed by the explicit `Validator` calls of
`validate_trigger_internal` before the unknown-field loop runs, as a
function of the caller and the in-list flag (the `Validator`'s
known-field bookkeeping, modelled from the spec). -/
def claimedName (caller : String) (in_list : Bool) (name : String) : Bool :=
  if name = "limit" then true
  else if name = "filter" then true
  else if name = "count" ∨ name = "percent" ∨ name = "order_by" ∨ name = "position"
      ∨ name = "min" ∨ name = "max" then true
  else if name = "text" ∨ name = "subject" then true
  else if name = "object" ∨ name = "value" then ¬ caller = "custom_description"
  else if name = "add" ∨ name = "factor" ∨ name = "desc" then ¬ caller = "modifier"
  else if name = "trigger" then true
  else if name = "amount" then caller = "calc_true_if" ∨ ¬ in_list
  else false

/-- Strip the `?` / `*` / `+` marker from a field name of a
`Trigger::Block` schema (trigger.rs `match_trigger_fields`). -/
def stripMarker (f : String) : String :=
  if strStartsWith f "?" ∨ strStartsWith f "*" ∨ strStartsWith f "+" then strDrop f 1
  else f

/-- Whether a schema field is required (`+` or unmarked). -/
def markerRequired (f : String) : Bool :=
  ¬ (strStartsWith f "?" ∨ strStartsWith f "*")

/-- `Validator::field_value` with its `expected value` report, used by
the macro-argument gathering of `validate_trigger_key_bv`. -/
def fieldValueWithEv (b : Block) (name : String) : Option Token × List Event :=
  match b.get_field name with
  | some (.value t) => (some t, [])
  | some (.block bb) => (none, [expectedValueEv bb.loc])
  | none => (none, [])

/-- Outcome of gathering the macro parameters of a scripted-trigger
call: either every parameter was found (with their argument tokens) or
the first missing parameter. -/
inductive MacroGather where
  | ok (ev : List Event) (toks : List Token)
  | missing (ev : List Event) (parm : String)

/-- The parameter-gathering loop of the scripted-trigger block path of
`validate_trigger_key_bv` (trigger.rs lines 310-318): parameters are
looked up in order; the first one missing stops the loop. -/
def macroParmGather (b : Block) : List String → MacroGather
  | [] => .ok [] []
  | p :: rest =>
      match fieldValueWithEv b p with
      | (some t, ev) =>
          match macroParmGather b rest with
          | .ok ev2 toks => .ok (ev ++ ev2) (t :: toks)
          | .missing ev2 parm => .missing (ev ++ ev2) parm
      | (none, ev) => .missing ev p

/-- Translation of `trigger_comparevalue` (trigger.rs): the trigger
can end a scope chain iff its descriptor is one of the compare-value
variants. -/
def trigger_comparevalue (data : Everything) (name : String) : Option Scopes :=
  match data.scopeTrigger name with
  | some (s, .compareValue) => some s
  | some (s, .compareValueWarnEq) => some s
  | some (s, .compareDate) => some s
  | some (s, .setValue) => some s
  | some (s, .compareValueOrBlock _) => some s
  | _ => none

/-- Outcome of the part-resolution loop of `validate_trigger_key_bv`:
an early return (the scope context already closed), or completion with
the possibly-found terminal descriptor. -/
inductive ChainOut where
  | early (ev : List Event) (sc : ScopeContext)
  | done (ev : List Event) (sc : ScopeContext) (found : Option (Trigger × Token))

/-- Prepend events to a chain outcome. -/
def ChainOut.prepend (evs : List Event) : ChainOut → ChainOut
  | .early e s => .early (evs ++ e) s
  | .done e s f => .done (evs ++ e) s f

/-- Outcome of the part-resolution loop of `validate_target_ok_this`. -/
inductive ChainOutT where
  | early (ev : List Event) (sc : ScopeContext)
  | done (ev : List Event) (sc : ScopeContext)
deriving DecidableEq

/-- Prepend events to a target-chain outcome. -/
def ChainOutT.prepend (evs : List Event) : ChainOutT → ChainOutT
  | .early e s => .early (evs ++ e) s
  | .done e s => .done (evs ++ e) s

/-- Translation of the part-resolution loop of
`validate_trigger_key_bv` (trigger.rs lines 353-447).  `fullKey` is the
key after `handle_argument`, used for the `event_id:` argument;
`specialIns` the special-value inscopes from `handle_argument`;
`first` whether the current part is the first.  The
`validate_prefix_reference` collaborator (validate.rs, absent from
src/) is recorded as a `pfxReference` event. -/
def chainLoopKeyBv (data : Everything) (fullKey : Token) (cmp : Comparator)
    (specialIns : Option Scopes) :
    List Token → Bool → ScopeContext → ChainOut
  | [], _, sc => .done [] sc none
  | part :: rest, first, sc =>
    let last := rest.isEmpty
    match strSplitOnce part.s ':' with
    | some (pfx, arg0) =>
      let arg := if pfx = "event_id" then
          ((strSplitOnce fullKey.s ':').map (·.2)).getD arg0
        else arg0
      match data.scopePfxTable pfx with
      | some (inscopes, outscope) =>
        let w1 := if inscopes = scopesNone ∧ ¬ first then
            [oldWarnEv part.loc .validation s!"`{pfx}:` makes no sense except as first part"]
          else []
        let (e2, sc2) := expectEv sc inscopes ⟨pfx, part.loc⟩
        let e3 := [Event.pfxReference pfx arg]
        let sc3 :=
          if pfx = "scope" then
            let scE := if last ∧ cmp = .equals .question then sc2.exists_scope arg part else sc2
            scE.replace_named_scope arg part
          else sc2.replace outscope part
        if pfx = "event_id" then .done (w1 ++ e2 ++ e3) sc3 none
        else (chainLoopKeyBv data fullKey cmp specialIns rest false sc3).prepend (w1 ++ e2 ++ e3)
      | none =>
        .early [errEv part.loc .validation s!"unknown prefix `{pfx}:`"] sc.close
    | none =>
      if strToLower part.s = "root" ∨ strToLower part.s = "prev" ∨ strToLower part.s = "this" then
        let w := if ¬ first then
            [oldWarnEv part.loc .validation s!"`{part.s}` makes no sense except as first part"]
          else []
        let sc' := if strToLower part.s = "root" then sc.replace_root
          else if strToLower part.s = "prev" then sc.replace_prev
          else sc.replace_this
        (chainLoopKeyBv data fullKey cmp specialIns rest false sc').prepend w
      else if data.scriptValueExists part.s then
        (chainLoopKeyBv data fullKey cmp specialIns rest false
            (sc.replace scopesValue part)).prepend
          [Event.scriptValueCall part.s part.loc]
      else
        match data.scopeToScope part.s sc.scopes with
        | some (inscopes, outscope) =>
          let w := if inscopes = scopesNone ∧ ¬ first then
              [oldWarnEv part.loc .validation s!"`{part.s}` makes no sense except as first part"]
            else []
          let (e2, sc2) := expectEv sc inscopes part
          (chainLoopKeyBv data fullKey cmp specialIns rest false
              (sc2.replace outscope part)).prepend (w ++ e2)
        | none =>
          if last ∧ specialIns.isSome then
            let (e2, sc2) := expectEv sc (specialIns.getD ∅) part
            .done e2 sc2 (some (.compareValue, part))
          else
            match data.scopeTrigger part.s with
            | some (inscopes, trigger) =>
              if ¬ last then
                .early [oldWarnEv part.loc .validation s!"`{part.s}` should be the last part"]
                  sc.close
              else
                let w := if inscopes = scopesNone ∧ ¬ first then
                    [oldWarnEv part.loc .validation
                      s!"`{part.s}` makes no sense except as only part"]
                  else []
                if part.s = "current_year" ∧ sc.scopes = scopesNone then
                  .done (w ++ [warnInfoEv part.loc .bugs
                      "current_year does not work in empty scope"
                      "try using current_date, or dummy_male.current_year"]) sc
                    (some (trigger, part))
                else
                  let (e2, sc2) := expectEv sc inscopes part
                  .done (w ++ e2) sc2 (some (trigger, part))
            | none =>
              .early [errEv part.loc .unknownField s!"unknown token `{part.s}`"] sc.close

/-- Translation of the part-resolution loop of
`validate_target_ok_this` (trigger.rs lines 984-1083); the ordering of
the cases differs from the key loop (scope transitions before script
values, `trigger_comparevalue` as terminal, `needs_prefix`
suggestion). -/
def chainLoopTarget (data : Everything) (outscopes : Scopes)
    (specialIns : Option Scopes) :
    List Token → Bool → ScopeContext → ChainOutT
  | [], _, sc => .done [] sc
  | part :: rest, first, sc =>
    let last := rest.isEmpty
    match strSplitOnce part.s ':' with
    | some (pfx, arg0) =>
      let arg := arg0
      match data.scopePfxTable pfx with
      | some (inscopes, outscope) =>
        let w1 := if inscopes = scopesNone ∧ ¬ first then
            [oldWarnEv part.loc .validation s!"`{pfx}:` makes no sense except as first part"]
          else []
        let (e2, sc2) := expectEv sc inscopes ⟨pfx, part.loc⟩
        let e3 := [Event.pfxReference pfx arg]
        let sc3 :=
          if pfx = "scope" then sc2.replace_named_scope arg part
          else sc2.replace outscope part
        if pfx = "event_id" then .done (w1 ++ e2 ++ e3) sc3
        else (chainLoopTarget data outscopes specialIns rest false sc3).prepend (w1 ++ e2 ++ e3)
      | none =>
        .early [errEv part.loc .validation s!"unknown prefix `{pfx}:`"] sc.close
    | none =>
      if strToLower part.s = "root" ∨ strToLower part.s = "prev" ∨ strToLower part.s = "this" then
        let w := if ¬ first then
            [oldWarnEv part.loc .validation s!"`{part.s}` makes no sense except as first part"]
          else []
        let sc' := if strToLower part.s = "root" then sc.replace_root
          else if strToLower part.s = "prev" then sc.replace_prev
          else sc.replace_this
        (chainLoopTarget data outscopes specialIns rest false sc').prepend w
      else
        match data.scopeToScope part.s sc.scopes with
        | some (inscopes, outscope) =>
          let w := if inscopes = scopesNone ∧ ¬ first then
              [oldWarnEv part.loc .validation s!"`{part.s}` makes no sense except as first part"]
            else []
          let (e2, sc2) := expectEv sc inscopes part
          (chainLoopTarget data outscopes specialIns rest false
              (sc2.replace outscope part)).prepend (w ++ e2)
        | none =>
          if data.scriptValueExists part.s then
            (chainLoopTarget data outscopes specialIns rest false
                (sc.replace scopesValue part)).prepend
              [Event.scriptValueCall part.s part.loc]
          else if last ∧ specialIns.isSome then
            let (e2, sc2) := expectEv sc (specialIns.getD ∅) part
            .done e2 (sc2.replace scopesValue part)
          else
            match trigger_comparevalue data part.s with
            | some inscopes =>
              if ¬ last then
                .early [oldWarnEv part.loc .scopes
                    s!"`{part.s}` only makes sense as the last part"] sc.close
              else
                let w := if inscopes = scopesNone ∧ ¬ first then
                    [oldWarnEv part.loc .validation
                      s!"`{part.s}` makes no sense except as first part"]
                  else []
                if part.s = "current_year" ∧ sc.scopes = scopesNone then
                  .done (w ++ [warnInfoEv part.loc .bugs
                      "current_year does not work in empty scope"
                      "try using current_date, or dummy_male.current_year"])
                    (sc.replace scopesValue part)
                else
                  let (e2, sc2) := expectEv sc inscopes part
                  .done (w ++ e2) (sc2.replace scopesValue part)
            | none =>
              let optInfo :=
                if first ∧ last then
                  (data.needsPfx part.s outscopes).map fun p =>
                    s!"did you mean `{p}:{part.s}` ?"
                else none
              .early [.diag ⟨.error, .unknownField, s!"unknown token `{part.s}`",
                  part.loc, none, optInfo⟩] sc.close

/-- Append events to a validator result. -/
def VRes.append (r : VRes) (ev : List Event) : VRes := ⟨r.ev ++ ev, r.sc, r.side⟩

/-- Fields of a block whose key parses as an integer and whose value
is a block (`Validator::integer_blocks`, modelled from the spec). -/
def integerBlocks (b : Block) : List Block :=
  b.iter_fields.filterMap fun f =>
    match strIsInteger f.1.s, f.2.2 with
    | true, .block bb => some bb
    | _, _ => none

mutual

/-- Translation of `validate_trigger_internal` (trigger.rs lines
98-266), with a fuel parameter standing in for Rust's unbounded
recursion: every call into the mutually recursive group consumes one
unit, and fuel 0 returns the empty result. -/
def validate_trigger_internal (fuel : Nat) (caller : String) (in_list : Bool)
    (block : Block) (data : Everything) (sc : ScopeContext)
    (tooltipped : Tooltipped) (negated : Bool) (maxSev : Severity) : VRes :=
  match fuel with
  | 0 => ⟨[], sc, false⟩
  | n + 1 =>
    let r0 : VRes := ⟨tooltipComplexityEvents caller negated tooltipped block.loc, sc, false⟩
    -- limit (trigger_if family validates it, everything else bans it)
    let r1 :=
      if isTIF caller then
        let req := if ¬ caller = "trigger_else" then vd_req_field_warn_ev block "limit" maxSev
          else []
        (fieldsNamed block "limit").foldl
          (fun (acc : VRes) f =>
            let advice := if caller = "trigger_else" then
                [adviceInfoEv f.1.loc .ifElse
                  "`trigger_else` with a `limit` does work, but may indicate a mistake"
                  "normally you would use `trigger_else_if` instead."]
              else []
            match f.2.2 with
            | .block bb =>
                let r := validate_trigger_internal n "" false bb data acc.sc .no false .error
                ⟨acc.ev ++ advice ++ r.ev, r.sc, acc.side || r.side⟩
            | .value t => ⟨acc.ev ++ advice ++ [expectedBlockEv t.loc], acc.sc, acc.side⟩)
          (r0.append req)
      else
        r0.append (banFieldEvents block "limit"
          "`trigger_if`, `trigger_else_if` or `trigger_else`" maxSev)
    -- filter (lists validate it, everything else bans it)
    let r2 :=
      if in_list then
        (fieldsNamed block "filter").foldl
          (fun (acc : VRes) f =>
            match f.2.2 with
            | .block bb =>
                let r := validate_trigger_internal n "" false bb data acc.sc .no false .error
                ⟨acc.ev ++ r.ev, r.sc, acc.side || r.side⟩
            | .value t => ⟨acc.ev ++ [expectedBlockEv t.loc], acc.sc, acc.side⟩)
          r1
      else r1.append (banFieldEvents block "filter" "lists" maxSev)
    -- iterator fields
    let listType := if in_list then ListType.any else ListType.none_
    let r3 := r2.append (validate_iterator_fields_model listType block maxSev)
    -- custom_description / custom_tooltip: text and subject
    let r4 :=
      if caller = "custom_description" ∨ caller = "custom_tooltip" then
        let req := vd_req_field_ev block "text" maxSev
        let textEvs :=
          if caller = "custom_tooltip" then
            (fieldsNamed block "text").flatMap fun f =>
              match f.2.2 with
              | .value t => verify_exists_max_sev data "localization" t maxSev
              | .block bb => [expectedValueEv bb.loc]
          else
            match fieldValueWithEv block "text" with
            | (some token, ev) =>
                ev ++ verify_exists_max_sev data "trigger_localization" token maxSev
                ++ (if data.itemExists "trigger_localization" token.s then
                      [Event.triggerLocUse token.s tooltipped negated]
                    else [])
            | (none, ev) => ev
        let subj := (fieldsNamed block "subject").foldl
          (fun (acc : List Event × ScopeContext) f =>
            match f.2.2 with
            | .value t =>
                let (ev, sc') := validate_target_ok_this n t data acc.2 scopesNonPrimitive
                (acc.1 ++ ev, sc')
            | .block bb => (acc.1 ++ [expectedValueEv bb.loc], acc.2))
          ([], r3.sc)
        ⟨r3.ev ++ req ++ textEvs ++ subj.1, subj.2, r3.side⟩
      else
        r3.append (banFieldEvents block "text" "`custom_description` or `custom_tooltip`" maxSev
          ++ banFieldEvents block "subject" "`custom_description` or `custom_tooltip`" maxSev)
    -- object / value
    let r5 :=
      if caller = "custom_description" then r4
      else r4.append (banFieldEvents block "object" "`custom_description`" maxSev
        ++ banFieldEvents block "value" "`custom_description`" maxSev)
    -- modifier: trigger field
    let r6 :=
      if caller = "modifier" then
        (fieldsNamed block "trigger").foldl
          (fun (acc : VRes) f =>
            match f.2.2 with
            | .block bb =>
                let r := validate_trigger_internal n "" false bb data acc.sc .no false .error
                ⟨acc.ev ++ r.ev, r.sc, acc.side || r.side⟩
            | .value t => ⟨acc.ev ++ [expectedBlockEv t.loc], acc.sc, acc.side⟩)
          r5
      else
        r5.append (banFieldEvents block "add" "`modifier` or script values" maxSev
          ++ banFieldEvents block "factor" "`modifier` blocks" maxSev
          ++ banFieldEvents block "desc" "`modifier` or script values" maxSev
          ++ banFieldEvents block "trigger" "`modifier` blocks" maxSev)
    -- calc_true_if: amount
    let r7 :=
      if caller = "calc_true_if" then r6.append (vd_req_field_ev block "amount" maxSev)
      else if ¬ in_list then r6.append (banFieldEvents block "amount" "`calc_true_if`" maxSev)
      else r6
    -- trigger_if / trigger_else_if / trigger_else ordering
    let r8 := r7.append (validate_ifelse_sequence block "trigger_if" "trigger_else_if"
      "trigger_else")
    -- the unknown-field loop
    block.iter_fields.foldl
      (fun (acc : VRes) f =>
        let key := f.1
        let cmp := f.2.1
        let bv := f.2.2
        if claimedName caller in_list key.s then acc
        else if key.is "add" || key.is "factor" || key.is "value" then
          ⟨acc.ev ++ [.scriptValue bv.loc], acc.sc, true⟩
        else if key.is "desc" || key.is "DESC" then
          acc.append [.descValidation bv.loc]
        else if key.is "object" then
          match bv with
          | .value t =>
              let (ev, sc') := validate_target_ok_this n t data acc.sc scopesNonPrimitive
              ⟨acc.ev ++ ev, sc', acc.side⟩
          | .block bb => acc.append [expectedValueEv bb.loc]
        else
          let iter :=
            match strSplitOnce key.s '_' with
            | some (itType, itName) =>
                if itType = "any" ∨ itType = "ordered" ∨ itType = "every" ∨ itType = "random"
                then
                  match data.scopeIterator itName acc.sc with
                  | some io => some (itType, itName, io.1, io.2)
                  | none => none
                else none
            | none => none
          match iter with
          | some (itType, itName, inscopes, outscope) =>
              if ¬ itType = "any" then
                acc.append [errEv key.loc .validation
                  s!"cannot use `{itType}_` list in a trigger"]
              else
                let (ev1, sc1) := expectEv acc.sc inscopes key
                match bv with
                | .block bb =>
                    let pre := precheck_iterator_fields_model bb
                    let sc2 := sc1.open_scope outscope key
                    let r := validate_trigger_internal n (strToLower itName) true bb data sc2
                      tooltipped negated maxSev
                    ⟨acc.ev ++ ev1 ++ pre ++ r.ev, r.sc.close, acc.side || r.side⟩
                | .value t => ⟨acc.ev ++ ev1 ++ [expectedBlockEv t.loc], sc1, acc.side⟩
          | none =>
              let r := validate_trigger_key_bv n key cmp bv data acc.sc tooltipped negated
                maxSev
              ⟨acc.ev ++ r.ev, r.sc, acc.side || r.side⟩)
      r8

/-- Translation of `validate_trigger_key_bv` (trigger.rs lines
274-497): scripted-trigger calls, bare numbers, and scope-chain keys
ending in a trigger descriptor. -/
def validate_trigger_key_bv (fuel : Nat) (key : Token) (cmp : Comparator) (bv : BV)
    (data : Everything) (sc : ScopeContext) (tooltipped : Tooltipped) (negated : Bool)
    (maxSev : Severity) : VRes :=
  match fuel with
  | 0 => ⟨[], sc, false⟩
  | n + 1 =>
    match data.getTrigger key.s with
    | some trigger =>
      match bv with
      | .value token =>
          let e1 :=
            if ¬ (token.is "yes" || token.is "no" || token.is "YES" || token.is "NO") then
              [oldWarnEv token.loc .validation "expected yes or no"]
            else []
          if ¬ trigger.macroParms.isEmpty then
            ⟨e1 ++ [fatalEv token.loc .macroErr "expected macro arguments"], sc, false⟩
          else
            let negated2 := if token.is "no" then ! negated else negated
            ⟨e1 ++ [.scriptedCall key.s negated2], sc, false⟩
      | .block b =>
          let parms := trigger.macroParms
          if parms.isEmpty then
            ⟨[fatalEv b.loc .macroErr "this scripted trigger does not need macro arguments"],
              sc, false⟩
          else
            match macroParmGather b parms with
            | .missing evs parm =>
                ⟨evs ++ [errEv b.loc .macroErr
                  s!"this scripted trigger needs parameter {parm}"], sc, false⟩
            | .ok evs vec =>
                let extra := b.iter_fields.filterMap fun f =>
                  match f.2.2 with
                  | .value _ =>
                      if parms.contains f.1.s then none
                      else some (Event.diag ⟨.fatal, .macroErr,
                        s!"this scripted trigger does not need parameter {f.1.s}", f.1.loc,
                        none, some "supplying an unneeded parameter often causes a crash"⟩)
                  | .block _ => none
                let args := parms.zip (vec.map (·.s))
                ⟨evs ++ extra ++ [.macroExpansion key.s args negated], sc, false⟩
    | none =>
      if key.is_number then ⟨[.scriptValue bv.loc], sc, false⟩
      else
        let ha := handle_argument n key data sc
        let key2 := ha.1
        let specialIns := ha.2.1
        let haEv := ha.2.2
        let parts := key2.splitParts '.'
        match chainLoopKeyBv data key2 cmp specialIns parts true sc.open_builder with
        | .early ev scE => ⟨haEv ++ ev, scE, false⟩
        | .done ev scD found =>
          match found with
          | some tn =>
              let r := match_trigger_bv n tn.1 tn.2 cmp bv data scD.close tooltipped negated
                maxSev
              ⟨haEv ++ ev ++ r.ev, r.sc, r.side⟩
          | none =>
            if ¬ (cmp = .equals .single ∨ cmp = .equals .question) then
              if scD.can_be scopesValue then
                ⟨haEv ++ ev ++ [.scriptValue bv.loc], scD.close, false⟩
              else if cmp = .notEquals ∨ cmp = .equals .double then
                let scopes := scD.scopes
                match bv with
                | .value t =>
                    let (ev2, sc2) := validate_target_ok_this n t data scD.close scopes
                    ⟨haEv ++ ev ++ ev2, sc2, false⟩
                | .block bb => ⟨haEv ++ ev ++ [expectedValueEv bb.loc], scD.close, false⟩
              else
                ⟨haEv ++ ev ++ [oldWarnEv key2.loc .validation
                  s!"unexpected comparator {cmp.display}"], scD.close, false⟩
            else
              match bv with
              | .value t =>
                  let scopes := scD.scopes
                  let (ev2, sc2) := validate_target_ok_this n t data scD.close scopes
                  ⟨haEv ++ ev ++ ev2, sc2, false⟩
              | .block b =>
                  let r := validate_trigger_internal n "" false b data scD.finalize_builder
                    tooltipped negated maxSev
                  ⟨haEv ++ ev ++ r.ev, r.sc.close, r.side⟩

/-- Translation of `match_trigger_fields` (trigger.rs lines 510-555):
required-field checks from the schema, then each block field validated
against every schema entry with its name. -/
def match_trigger_fields (fuel : Nat) (fields : List (String × Trigger)) (block : Block)
    (data : Everything) (sc : ScopeContext) (tooltipped : Tooltipped) (negated : Bool)
    (maxSev : Severity) : VRes :=
  match fuel with
  | 0 => ⟨[], sc, false⟩
  | n + 1 =>
    let reqEvs := fields.flatMap fun fld =>
      if markerRequired fld.1 then vd_req_field_ev block (stripMarker fld.1) maxSev else []
    block.iter_fields.foldl
      (fun (acc : VRes) f =>
        fields.foldl
          (fun (acc2 : VRes) fld =>
            if f.1.s = stripMarker fld.1 then
              let r := match_trigger_bv n fld.2 f.1 f.2.1 f.2.2 data acc2.sc tooltipped
                negated maxSev
              ⟨acc2.ev ++ r.ev, r.sc, acc2.side || r.side⟩
            else acc2)
          acc)
      ⟨reqEvs, sc, false⟩

/-- Translation of `match_trigger_bv` (trigger.rs lines 566-961), ck3
configuration: dispatch on the trigger descriptor, then the comparator
epilogue driven by `must_be_eq` / `warn_if_eq`. -/
def match_trigger_bv (fuel : Nat) (trigger : Trigger) (name : Token) (cmp : Comparator)
    (bv : BV) (data : Everything) (sc : ScopeContext) (tooltipped : Tooltipped)
    (negated : Bool) (maxSev : Severity) : VRes :=
  match fuel with
  | 0 => ⟨[], sc, false⟩
  | n + 1 =>
    let core : VRes × Bool × Bool :=
      match trigger with
      | .boolean =>
          (match bv with
            | .value token =>
                let (ev, sc') := validate_target n token data sc scopesBool
                ⟨ev, sc', false⟩
            | .block b => ⟨[expectedValueEv b.loc], sc, false⟩, true, false)
      | .compareValue => (⟨[.scriptValue bv.loc], sc, false⟩, false, false)
      | .compareValueWarnEq => (⟨[.scriptValue bv.loc], sc, false⟩, false, true)
      | .setValue => (⟨[.scriptValue bv.loc], sc, false⟩, true, false)
      | .compareDate =>
          (match bv with
            | .value token =>
                if (parseDate token.s).isNone then
                  ⟨[oldWarnEv token.loc .validation s!"{name.s} expects a date value"], sc,
                    false⟩
                else ⟨[], sc, false⟩
            | .block b => ⟨[expectedValueEv b.loc], sc, false⟩, false, false)
      | .scope s =>
          (match bv with
            | .value token =>
                let (ev, sc') := validate_target n token data sc s
                ⟨ev, sc', false⟩
            | .block b =>
                if s.containsType .value then ⟨[.scriptValue bv.loc], sc, false⟩
                else ⟨[expectedValueEv b.loc], sc, false⟩, true, false)
      | .scopeOkThis s =>
          (match bv with
            | .value token =>
                let (ev, sc') := validate_target_ok_this n token data sc s
                ⟨ev, sc', false⟩
            | .block b =>
                if s.containsType .value then ⟨[.scriptValue bv.loc], sc, false⟩
                else ⟨[expectedValueEv b.loc], sc, false⟩, true, false)
      | .item i =>
          (match bv with
            | .value token => ⟨verify_exists_max_sev data i token maxSev, sc, false⟩
            | .block b => ⟨[expectedValueEv b.loc], sc, false⟩, true, false)
      | .scopeOrItem s i =>
          (match bv with
            | .value token =>
                if data.itemExists i token.s then ⟨[], sc, false⟩
                else
                  let (ev, sc') := validate_target n token data sc s
                  ⟨ev, sc', false⟩
            | .block b => ⟨[expectedValueEv b.loc], sc, false⟩, true, false)
      | .choice cs =>
          (match bv with
            | .value token =>
                if cs.contains token.s then ⟨[], sc, false⟩
                else
                  let info := "valid values are: " ++ strIntercalate ", " cs
                  ⟨[warnInfoEv token.loc .validation
                      s!"unknown value {token.s} for {name.s}" info], sc, false⟩
            | .block b => ⟨[expectedValueEv b.loc], sc, false⟩, true, false)
      | .block fields =>
          (match bv with
            | .block b => match_trigger_fields n fields b data sc tooltipped negated maxSev
            | .value t => ⟨[expectedBlockEv t.loc], sc, false⟩, true, false)
      | .scopeOrBlock s fields =>
          (match bv with
            | .value token =>
                let (ev, sc') := validate_target n token data sc s
                ⟨ev, sc', false⟩
            | .block b => match_trigger_fields n fields b data sc tooltipped negated maxSev,
            true, false)
      | .itemOrBlock i fields =>
          (match bv with
            | .value token => ⟨verify_exists_max_sev data i token maxSev, sc, false⟩
            | .block b => match_trigger_fields n fields b data sc tooltipped negated maxSev,
            true, false)
      | .compareValueOrBlock fields =>
          (match bv with
            | .value t =>
                let (ev, sc') := validate_target n t data sc scopesValue
                (⟨ev, sc', false⟩ : VRes)
            | .block b => match_trigger_fields n fields b data sc tooltipped negated maxSev,
            (match bv with | .value _ => false | .block _ => true), false)
      | .scopeList s =>
          (match bv with
            | .block b =>
                (b.items.filterMap fun it =>
                    match it with
                    | .bare t => some t
                    | _ => none).foldl
                  (fun (acc : VRes) t =>
                    let (ev, sc') := validate_target n t data acc.sc s
                    ⟨acc.ev ++ ev, sc', acc.side⟩)
                  ⟨[], sc, false⟩
            | .value t => ⟨[expectedBlockEv t.loc], sc, false⟩, true, false)
      | .scopeCompare s =>
          (match bv with
            | .block b =>
                let cnt := if ¬ b.items.length = 1 then
                    [oldWarnEv b.loc .validation "unexpected number of items in block"]
                  else []
                b.iter_fields.foldl
                  (fun (acc : VRes) f =>
                    let (ev1, sc1) := validate_target n f.1 data acc.sc s
                    match f.2.2 with
                    | .value t =>
                        let (ev2, sc2) := validate_target n t data sc1 s
                        ⟨acc.ev ++ ev1 ++ ev2, sc2, acc.side⟩
                    | .block bb => ⟨acc.ev ++ ev1 ++ [expectedValueEv bb.loc], sc1, acc.side⟩)
                  ⟨cnt, sc, false⟩
            | .value t => ⟨[expectedBlockEv t.loc], sc, false⟩, true, false)
      | .compareToScope s =>
          (match bv with
            | .value token =>
                let (ev, sc') := validate_target n token data sc s
                ⟨ev, sc', false⟩
            | .block b => ⟨[expectedValueEv b.loc], sc, false⟩, false, false)
      | .control =>
          (match bv with
            | .block b =>
                let nameLc := strToLower name.s
                let negated2 :=
                  if nameLc = "all_false" ∨ nameLc = "not" ∨ nameLc = "nand" ∨ nameLc = "nor"
                  then ! negated else negated
                let tooltipped2 := if nameLc = "custom_description" then Tooltipped.no
                  else tooltipped
                validate_trigger_internal n nameLc false b data sc tooltipped2 negated2
                  maxSev
            | .value t => ⟨[expectedBlockEv t.loc], sc, false⟩, true, false)
      | .special =>
          (match_trigger_special n name cmp bv data sc tooltipped negated maxSev, true, false)
      | .uncheckedValue =>
          (match bv with
            | .block b => ⟨[expectedValueEv b.loc], sc, true⟩
            | .value _ => ⟨[], sc, true⟩, true, false)
    let ep :=
      match cmp with
      | .equals _ =>
          if core.2.2 then
            [oldWarnEv name.loc .logic
              s!"`{name.s} {cmp.display}` means exactly equal to that amount, which is usually not what you want"]
          else []
      | _ =>
          if core.2.1 then
            [oldWarnEv name.loc .validation s!"unexpected comparator {cmp.display}"]
          else []
    ⟨core.1.ev ++ ep, core.1.sc, core.1.side⟩

/-- Translation of the `Trigger::Special` branch of `match_trigger_bv`
(trigger.rs lines 790-940): the name-dispatched custom validations
(`exists`, `custom_tooltip`, `has_gene`, the save-scope family,
`weighted_calc_true_if`, `switch`, the list triggers). -/
def match_trigger_special (fuel : Nat) (name : Token) (_cmp : Comparator) (bv : BV)
    (data : Everything) (sc : ScopeContext) (tooltipped : Tooltipped) (negated : Bool)
    (maxSev : Severity) : VRes :=
  match fuel with
  | 0 => ⟨[], sc, false⟩
  | n + 1 =>
    if name.is "exists" then
      match bv with
      | .value token =>
          if token.is "yes" || token.is "no" then
            if sc.must_be scopesNone then
              ⟨[oldWarnEv token.loc .scopes "`exists = {token}` does nothing in None scope"],
                sc, false⟩
            else ⟨[], sc, false⟩
          else if strStartsWith token.s "scope:" ∧ ¬ strContainsChar token.s '.' then
            if ¬ negated then ⟨[], sc.exists_scope (strDrop token.s 6) name, false⟩
            else ⟨[], sc, false⟩
          else if strStartsWith token.s "flag:" then ⟨[], sc, false⟩
          else
            let (ev, sc') := validate_target_ok_this n token data sc scopesNonPrimitive
            let e2 :=
              if tooltipped.is_tooltipped ∧ strEndsWith token.s ".holder" then
                let firstpart := strDropRight token.s 7
                [adviceInfoEv name.loc .tooltip
                  s!"could rewrite this as `{firstpart} = \x7b is_title_created = yes \x7d`"
                  "it gives a nicer tooltip"]
              else []
            ⟨ev ++ e2, sc', false⟩
      | .block b => ⟨[expectedValueEv b.loc], sc, false⟩
    else if name.is "custom_tooltip" then
      match bv with
      | .value t => ⟨verify_exists_max_sev data "localization" t maxSev, sc, false⟩
      | .block b =>
          validate_trigger_internal n (strToLower name.s) false b data sc .no negated maxSev
    else if name.is "has_gene" then
      match bv with
      | .block b =>
          let catEvs := (fieldsNamed b "category").flatMap fun f =>
            match f.2.2 with
            | .value t => verify_exists_max_sev data "gene_category" t maxSev
            | .block bb => [expectedValueEv bb.loc]
          let tmpl :=
            match b.get_field_value "category", b.get_field_value "template" with
            | some c, some t => [Event.geneTemplate c.s t.s]
            | _, _ => []
          ⟨catEvs ++ tmpl, sc, false⟩
      | .value t => ⟨[expectedBlockEv t.loc], sc, false⟩
    else if name.is "save_temporary_opinion_value_as" then
      match bv with
      | .block b =>
          let req := vd_req_field_ev b "name" maxSev ++ vd_req_field_ev b "target" maxSev
          let tgt := (fieldsNamed b "target").foldl
            (fun (acc : List Event × ScopeContext) f =>
              match f.2.2 with
              | .value t =>
                  let (ev, sc') := validate_target n t data acc.2 {ScopeType.character}
                  (acc.1 ++ ev, sc')
              | .block bb => (acc.1 ++ [expectedValueEv bb.loc], acc.2))
            ([], sc)
          match b.get_field_value "name" with
          | some nm =>
              ⟨req ++ tgt.1, (tgt.2.define_name_token nm.s scopesValue nm), true⟩
          | none => ⟨req ++ tgt.1, tgt.2, false⟩
      | .value t => ⟨[expectedBlockEv t.loc], sc, false⟩
    else if name.is "save_temporary_scope_value_as" then
      match bv with
      | .block b =>
          let req := vd_req_field_ev b "name" maxSev ++ vd_req_field_ev b "value" maxSev
          let val := (fieldsNamed b "value").foldl
            (fun (acc : List Event × ScopeContext) f =>
              match f.2.2 with
              | .value t =>
                  let (ev, sc') := validate_target n t data acc.2 scopesPrimitive
                  (acc.1 ++ ev, sc')
              | .block _ => (acc.1 ++ [.scriptValue f.2.2.loc], acc.2))
            ([], sc)
          match b.get_field_value "name" with
          | some nm =>
              ⟨req ++ val.1, (val.2.define_name_token nm.s scopesPrimitive nm), true⟩
          | none => ⟨req ++ val.1, val.2, false⟩
      | .value t => ⟨[expectedBlockEv t.loc], sc, false⟩
    else if name.is "save_temporary_scope_as" then
      match bv with
      | .value nm => ⟨[], sc.save_current_scope nm.s, true⟩
      | .block b => ⟨[expectedValueEv b.loc], sc, false⟩
    else if name.is "weighted_calc_true_if" then
      match bv with
      | .block b =>
          let amountEv :=
            match b.get_field "amount" with
            | some (.value t) =>
                if t.is_number then [] else
                  [oldWarnEv t.loc .validation "expected number"]
            | some (.block bb) => [expectedValueEv bb.loc]
            | none => []
          (integerBlocks b).foldl
            (fun (acc : VRes) bb =>
              let r := validate_trigger_internal n "" false bb data acc.sc tooltipped false
                .error
              ⟨acc.ev ++ r.ev, r.sc, acc.side || r.side⟩)
            ⟨amountEv, sc, false⟩
      | .value t => ⟨[expectedBlockEv t.loc], sc, false⟩
    else if name.is "switch" then
      match bv with
      | .block b =>
          let req := vd_req_field_ev b "trigger" maxSev
          match b.get_field_value "trigger" with
          | some target =>
              let branches := b.iter_fields.filterMap fun f =>
                match f.2.2 with
                | .block bb => if f.1.s = "trigger" then none else some (f.1, bb)
                | .value _ => none
              let body := branches.foldl
                (fun (acc : VRes) br =>
                  let r1 :=
                    if ¬ br.1.is "fallback" then
                      validate_trigger_key_bv n target (.equals .single) (.value br.1) data
                        acc.sc tooltipped negated maxSev
                    else ⟨[], acc.sc, false⟩
                  let r2 := validate_trigger_internal n "" false br.2 data r1.sc tooltipped
                    false .error
                  ⟨acc.ev ++ r1.ev ++ r2.ev, r2.sc, acc.side || r2.side⟩)
                ⟨req, sc, false⟩
              if branches.length = 0 then
                body.append [errEv name.loc .logic "switch with no branches"]
              else body
          | none => ⟨req, sc, false⟩
      | .value t => ⟨[expectedBlockEv t.loc], sc, false⟩
    else if name.is "add_to_temporary_list" then
      match bv with
      | .value v => ⟨[], sc.define_or_expect_list v, true⟩
      | .block b => ⟨[expectedValueEv b.loc], sc, false⟩
    else if name.is "is_in_list" then
      match bv with
      | .value v => ⟨(sc.expect_list v).map .diag, sc, false⟩
      | .block b => ⟨[expectedValueEv b.loc], sc, false⟩
    else if name.is "is_researching_technology" then
      ⟨[], sc, false⟩
    else ⟨[], sc, false⟩

/-- Translation of `validate_target_ok_this` (trigger.rs lines
968-1096): numbers, the part-resolution loop, and the final
scope-intersection check with its one- or two-location diagnostic. -/
def validate_target_ok_this (fuel : Nat) (token : Token) (data : Everything)
    (sc : ScopeContext) (outscopes : Scopes) : List Event × ScopeContext :=
  match fuel with
  | 0 => ([], sc)
  | n + 1 =>
    if token.is_number then
      if ¬ outscopes.intersects (scopesValue ∪ scopesNone) then
        ([oldWarnEv token.loc .scopes s!"expected {outscopes.display}"], sc)
      else ([], sc)
    else
      let ha := handle_argument n token data sc
      let tok2 := ha.1
      let specialIns := ha.2.1
      let haEv := ha.2.2
      let parts := tok2.splitParts '.'
      match chainLoopTarget data outscopes specialIns parts true sc.open_builder with
      | .early ev scE => (haEv ++ ev, scE)
      | .done ev scD =>
          let fr := scD.scopes_reason
          let finalScopes := fr.1
          let because := fr.2
          let fin :=
            if ¬ outscopes.intersects (finalScopes ∪ scopesNone) then
              let part := parts.getLast?.getD tok2
              let msg :=
                s!"`{part.s}` produces {finalScopes.display} but expected {outscopes.display}"
              if part.s = because.s ∧ part.loc = because.loc then
                [oldWarnEv part.loc .scopes msg]
              else
                [Event.diag ⟨.warning, .scopes, msg, part.loc,
                  some (because.loc, s!"scope was {reasonMsg because}"), none⟩]
            else []
          (haEv ++ ev ++ fin, scD.close)

/-- Translation of `validate_target` (trigger.rs lines 1100-1106):
like `validate_target_ok_this`, plus the `this` usage warning. -/
def validate_target (fuel : Nat) (token : Token) (data : Everything) (sc : ScopeContext)
    (outscopes : Scopes) : List Event × ScopeContext :=
  match fuel with
  | 0 => ([], sc)
  | n + 1 =>
    let (ev, sc') := validate_target_ok_this n token data sc outscopes
    (ev ++ (if token.is "this" then
        [oldWarnEv token.loc .useOfThis "target `this` makes no sense here"]
      else []), sc')

/-- Translation of `handle_argument` (trigger.rs lines 1112-1164):
extract a `name(argument)` special-value argument, validate it
according to the special-value table, and return the key without the
argument together with the special value's inscopes. -/
def handle_argument (fuel : Nat) (key : Token) (data : Everything) (sc : ScopeContext) :
    Token × Option Scopes × List Event :=
  match fuel with
  | 0 => (key, none, [])
  | n + 1 =>
    match strSplitOnce key.s '(' with
    | some (before, after) =>
      match strSplitOnce after ')' with
      | some (arg, after2) =>
          if ¬ after2 = "" then
            (key, none, [errEv key.loc .validation "cannot chain after special value"])
          else
            let argT : Token := ⟨strTrim arg, key.loc⟩
            let trig := (strSplit before '.').getLast?.getD before
            match data.scopeTriggerSpecialValue trig with
            | some fa =>
                let ev :=
                  match fa.2 with
                  | .item i => verify_exists_ev data i argT
                  | .scope s => (validate_target n argT data sc s).1
                  | .uncheckedValue => []
                  | _ => []
                (⟨before, key.loc⟩, some fa.1, ev)
            | none => (key, none, [])
      | none => (key, none, [])
    | none => (key, none, [])

end

/-- Translation of `validate_trigger` (trigger.rs lines 42-58): the
standard entry, caller empty, not in a list, not negated, severity
Error. -/
def validate_trigger (fuel : Nat) (block : Block) (data : Everything) (sc : ScopeContext)
    (tooltipped : Tooltipped) : VRes :=
  validate_trigger_internal fuel "" false block data sc tooltipped false .error

/-- Translation of `validate_trigger_max_sev` (trigger.rs lines
64-81). -/
def validate_trigger_max_sev (fuel : Nat) (block : Block) (data : Everything)
    (sc : ScopeContext) (tooltipped : Tooltipped) (maxSev : Severity) : VRes :=
  validate_trigger_internal fuel "" false block data sc tooltipped false maxSev

/-! ## Theorems about the claims -/

/-- A fixture location used by the concrete witnesses. -/
def locW : Loc := ⟨"history/characters/w.txt", 1, 2, 3⟩

/-- A second fixture location. -/
def locW2 : Loc := ⟨"history/characters/w.txt", 1, 9, 1⟩

/-- C1: `Characters::verify_exists_gender` — a missing character gives
exactly one `MissingItem` diagnostic with message "character not
defined in history/characters/" at the token; an existing character of
the wrong gender gives exactly one `WrongGender` diagnostic with
message "character is not {expected gender}" at the token; a matching
character gives no diagnostic.  Moreover the spouse checks of
`validate_history` expect the flip of the enclosing character's
gender, so a female character expects a male `add_spouse`, and the
expected-male message renders as "character is not male". -/
theorem claim_C1_verify_exists_gender :
    (∀ (chars : Characters) (item : Token) (g : Gender),
      (chars.get item.s = none →
        chars.verify_exists_gender item g =
          [⟨.error, .missingItem, "character not defined in history/characters/",
            item.loc, none, none⟩]) ∧
      (∀ ch, chars.get item.s = some ch → ¬ g = ch.gender →
        chars.verify_exists_gender item g =
          [⟨.error, .wrongGender, s!"character is not {g.display}", item.loc, none, none⟩]) ∧
      (∀ ch, chars.get item.s = some ch → g = ch.gender →
        chars.verify_exists_gender item g = []))
    ∧ (∀ parent : Block, parent.get_field_bool "female" = some true →
        (history_gender parent).flip = .male)
    ∧ Gender.display .male = "male" := by
  refine ⟨fun chars item g => ⟨?_, ?_, ?_⟩, ?_, rfl⟩
  · intro h
    simp [Characters.verify_exists_gender, h]
  · intro ch h hne
    simp [Characters.verify_exists_gender, h, hne]
  · intro ch h he
    simp [Characters.verify_exists_gender, h, he]
  · intro parent h
    simp [history_gender, h, Gender.from_female_bool, Gender.flip]

/-- Witness catalog for C1: `carol` is defined and female, `bob` is
not defined. -/
def wChars : Characters :=
  ⟨none, [("carol", ⟨⟨"carol", locW⟩,
    .mk locW [.field ⟨"female", locW⟩ (.equals .single) (.value ⟨"yes", locW⟩)]⟩)]⟩

/-- Witness for C1 at a concrete catalog: the missing-character and
wrong-gender cases. -/
theorem claim_C1_witness :
    Characters.verify_exists_gender wChars ⟨"bob", locW2⟩ .male =
      [⟨.error, .missingItem, "character not defined in history/characters/",
        locW2, none, none⟩]
    ∧ Characters.verify_exists_gender wChars ⟨"carol", locW2⟩ .male =
      [⟨.error, .wrongGender, "character is not male", locW2, none, none⟩] := by
  constructor
  · exact (claim_C1_verify_exists_gender.1 wChars ⟨"bob", locW2⟩ .male).1 rfl
  · have h := (claim_C1_verify_exists_gender.1 wChars ⟨"carol", locW2⟩ .male).2.1
      ⟨⟨"carol", locW⟩, .mk locW [.field ⟨"female", locW⟩ (.equals .single)
        (.value ⟨"yes", locW⟩)]⟩ rfl (by decide)
    rw [h]
    decide

/-- The 124-byte file used against C3: valid magic, all other bytes
zero. -/
def ddsFile124 : List Nat := ddsMagic ++ List.replicate 120 0

set_option maxRecDepth 8192 in
/-- C3 counterexample: `load_dds` reads 124 bytes, not 128 — a
124-byte file (which has no first 128 bytes to read) is nevertheless
loaded successfully, while the reader described by the claim fails on
it. -/
theorem claim_C3_counterexample :
    ddsFile124.length = 124
    ∧ load_dds locW ddsFile124 = .loaded ⟨0, 0⟩
    ∧ load_dds_as_claimed locW ddsFile124 = .ioError := by
  refine ⟨by decide, by decide, by decide⟩

/-- Helper: on a file extending a full 124-byte header, `load_dds`
depends only on the header. -/
theorem load_dds_append (l : Loc) (hdr rest : List Nat)
    (h : hdr.length = DDS_HEADER_SIZE) :
    load_dds l (hdr ++ rest) =
      if hdr.take 4 = ddsMagic then .loaded (DdsInfo.new hdr)
      else .skipped ⟨.warning, .imageFormat, "not a DDS file", l, none, none⟩ := by
  have hlen : (hdr ++ rest).length = DDS_HEADER_SIZE + rest.length := by
    simp [h]
  have htake : (hdr ++ rest).take DDS_HEADER_SIZE = hdr := by
    rw [← h]
    exact List.take_left hdr rest
  rw [load_dds, hlen]
  simp [htake]

/-- C3 as amended: loading a .dds file reads exactly the first 124
bytes as the header (the result depends only on them), requires the
`DDS ` magic (otherwise one `ImageFormat` diagnostic and the file is
not recorded), and records the width as the little-endian 32-bit value
at offset 16 and the height as the one at offset 12. -/
theorem claim_C3_dds_header (l : Loc) (hdr rest₁ rest₂ : List Nat)
    (h : hdr.length = DDS_HEADER_SIZE) :
    load_dds l (hdr ++ rest₁) = load_dds l (hdr ++ rest₂)
    ∧ (¬ hdr.take 4 = ddsMagic →
        load_dds l (hdr ++ rest₁) =
          .skipped ⟨.warning, .imageFormat, "not a DDS file", l, none, none⟩)
    ∧ (hdr.take 4 = ddsMagic →
        load_dds l (hdr ++ rest₁) =
          .loaded ⟨from_le32 hdr DDS_WIDTH_OFFSET, from_le32 hdr DDS_HEIGHT_OFFSET⟩) := by
  refine ⟨?_, ?_, ?_⟩
  · rw [load_dds_append l hdr rest₁ h, load_dds_append l hdr rest₂ h]
  · intro hm
    rw [load_dds_append l hdr rest₁ h, if_neg hm]
  · intro hm
    rw [load_dds_append l hdr rest₁ h, if_pos hm]
    rfl

set_option maxRecDepth 8192 in
/-- Witness for the amended C3 at a concrete header: two different
tails give the same result, and width/height come from the fixed
offsets. -/
theorem claim_C3_witness :
    load_dds locW (ddsFile124 ++ [1, 2, 3]) = load_dds locW (ddsFile124 ++ [7])
    ∧ load_dds locW (ddsFile124 ++ [1, 2, 3]) =
        .loaded ⟨from_le32 ddsFile124 DDS_WIDTH_OFFSET,
          from_le32 ddsFile124 DDS_HEIGHT_OFFSET⟩ := by
  have h := claim_C3_dds_header locW ddsFile124 [1, 2, 3] [7] (by decide)
  exact ⟨h.1, h.2.2 (by decide)⟩

/-- C8 as amended: `Characters::load_item` — when no binding exists no
diagnostic is emitted; when the existing binding's overlay kind is at
least the new one's *and* the existing definition passes the
`only_born` filter (always true when no `only_born` date is
configured), exactly one duplicate diagnostic pointing at both
definitions is emitted; a new definition from a strictly higher
overlay shadows silently; and in every case the new definition
replaces the stored one (last wins). -/
theorem claim_C8_load_item (self : Characters) (key : Token) (block : Block) :
    ((self.load_item key block).2.get key.s = some ⟨key, block⟩)
    ∧ (self.get key.s = none → (self.load_item key block).1 = [])
    ∧ (∀ other, self.get key.s = some other →
        (other.key.loc.kind ≥ key.loc.kind → other.born_by self.config_only_born = true →
          (self.load_item key block).1 = [dup_error key other.key "character"])
        ∧ (other.key.loc.kind < key.loc.kind → (self.load_item key block).1 = [])) := by
  refine ⟨?_, ?_, ?_⟩
  · simp [Characters.load_item, Characters.get, charsInsert, List.find?]
  · intro h
    simp [Characters.load_item, h]
  · intro other h
    constructor
    · intro h1 h2
      simp [Characters.load_item, h, h1, h2]
    · intro h1
      have : ¬ (other.key.loc.kind ≥ key.loc.kind ∧
          other.born_by self.config_only_born = true) := by
        rintro ⟨h2, _⟩
        exact absurd (lt_of_lt_of_le h1 h2) (lt_irrefl _)
      simp only [Characters.load_item, h]
      rw [if_neg (by simpa using this)]

/-- The existing `bob` of the C8 counterexample: same overlay kind 1,
an empty block (so no birth date at all). -/
def c8Old : Character := ⟨⟨"bob", locW⟩, .mk locW []⟩

/-- A catalog with an `only_born` filter configured and `bob`
present. -/
def c8Chars : Characters := ⟨some ⟨100, 1, 1⟩, [("bob", c8Old)]⟩

/-- C8 counterexample: two definitions of `bob` from the *same*
overlay, yet no duplicate diagnostic is emitted, because the existing
definition fails the `only_born` filter — the claim's "exactly one
diagnostic when the two definitions come from the same overlay" does
not hold unconditionally. -/
theorem claim_C8_counterexample :
    (⟨"bob", locW2⟩ : Token).loc.kind = c8Old.key.loc.kind
    ∧ (c8Chars.load_item ⟨"bob", locW2⟩ (.mk locW2 [])).1 = [] := by
  exact ⟨rfl, by decide⟩

/-- Witness for C8 at concrete inputs: same-kind duplicate with no
`only_born` filter emits the duplicate diagnostic; a higher-overlay
duplicate is silent; last wins. -/
theorem claim_C8_witness :
    ((⟨none, [("bob", c8Old)]⟩ : Characters).load_item ⟨"bob", locW2⟩ (.mk locW2 [])).1 =
      [dup_error ⟨"bob", locW2⟩ ⟨"bob", locW⟩ "character"]
    ∧ ((⟨none, [("bob", c8Old)]⟩ : Characters).load_item
        ⟨"bob", ⟨"m", 5, 1, 1⟩⟩ (.mk locW2 [])).1 = []
    ∧ ((⟨none, [("bob", c8Old)]⟩ : Characters).load_item ⟨"bob", locW2⟩
        (.mk locW2 [])).2.get "bob" = some ⟨⟨"bob", locW2⟩, .mk locW2 []⟩ := by
  refine ⟨?_, ?_, ?_⟩
  · exact ((claim_C8_load_item ⟨none, [("bob", c8Old)]⟩ ⟨"bob", locW2⟩ (.mk locW2 [])).2.2
      c8Old rfl).1 (by decide) rfl
  · exact ((claim_C8_load_item ⟨none, [("bob", c8Old)]⟩ ⟨"bob", ⟨"m", 5, 1, 1⟩⟩
      (.mk locW2 [])).2.2 c8Old rfl).2 (by decide)
  · exact (claim_C8_load_item ⟨none, [("bob", c8Old)]⟩ ⟨"bob", locW2⟩ (.mk locW2 [])).1

/-- Value shapes that `get_field_bool` rejects: anything that is not
the token `yes` or `no`. -/
def nonBoolBV : BV → Bool
  | .value t => ¬ (t.s = "yes" ∨ t.s = "no")
  | .block _ => true

/-- Helper for C10: a block whose `female` fields are all non-boolean
(or absent) has no boolean `female` value. -/
theorem get_field_bool_female_none (b : Block)
    (h : (fieldsNamed b "female").all (fun f => nonBoolBV f.2.2) = true) :
    b.get_field_bool "female" = none := by
  rw [Block.get_field_bool]
  rw [Block.get_field_value, Block.get_field]
  cases hl : (b.iter_fields.filter fun f => f.1.s = "female").getLast? with
  | none => simp
  | some f =>
      have hmem : f ∈ b.iter_fields.filter fun f => f.1.s = "female" :=
        List.mem_of_mem_getLast? hl
      have hnb : nonBoolBV f.2.2 = true := by
        have := List.all_eq_true.mp h
        exact this f hmem
      cases hbv : f.2.2 with
      | value t =>
          rw [hbv] at hnb
          simp only [nonBoolBV, decide_eq_true_eq] at hnb
          push_neg at hnb
          simp [hbv, hnb.1, hnb.2]
      | block bb => simp [hbv]

/-- C10: a character whose block has no `female` field, or whose
`female` fields are not boolean values, is treated as male: both
`Character::gender` and the parent-gender computation of
`validate_history` yield Male. -/
theorem claim_C10_gender_default (ch : Character)
    (h : (fieldsNamed ch.block "female").all (fun f => nonBoolBV f.2.2) = true) :
    ch.gender = .male ∧ history_gender ch.block = .male := by
  have hb := get_field_bool_female_none ch.block h
  constructor
  · rw [Character.gender, hb]
    rfl
  · rw [history_gender, hb]
    rfl

/-- Witness for C10: a character whose `female` field is a block (not
a boolean) is treated as male. -/
theorem claim_C10_witness :
    (⟨⟨"dana", locW⟩, .mk locW [.field ⟨"female", locW⟩ (.equals .single)
      (.block (.mk locW []))]⟩ : Character).gender = .male := by
  exact (claim_C10_gender_default _ (by decide)).1

/-- The location order is total. -/
theorem locLE_total (a b : Loc) : (locLE a b || locLE b a) = true := by
  simp only [locLE, Bool.or_eq_true, decide_eq_true_eq]
  exact le_total (locKey a) (locKey b)

/-- The location order is transitive. -/
theorem locLE_trans {a b c : Loc} (h1 : locLE a b = true) (h2 : locLE b c = true) :
    locLE a c = true := by
  simp only [locLE, decide_eq_true_eq] at *
  exact le_trans h1 h2

/-- The location order is antisymmetric. -/
theorem locLE_antisymm {a b : Loc} (h1 : locLE a b = true) (h2 : locLE b a = true) :
    a = b := by
  simp only [locLE, decide_eq_true_eq] at h1 h2
  have h := le_antisymm h1 h2
  simp only [locKey, toLex_inj, Prod.mk.injEq] at h
  cases a
  cases b
  simp_all

/-- C9: `Characters::validate` visits the characters in the explicitly
sorted order of their key locations, so validation is a deterministic
function of the catalog contents: two catalogs holding the same
bindings in any hash-map iteration order (with the key locations
pairwise distinct, as distinct tokens have distinct source positions)
produce identical diagnostic sequences. -/
theorem claim_C9_validate_deterministic (cob : Option Date)
    (l₁ l₂ : List (String × Character)) (data : CharData)
    (hperm : l₁.Perm l₂)
    (hdist : (l₁.map (·.2)).Pairwise fun a b => a.key.loc ≠ b.key.loc) :
    Characters.validate ⟨cob, l₁⟩ data = Characters.validate ⟨cob, l₂⟩ data := by
  have hpv : (l₁.map (·.2)).Perm (l₂.map (·.2)) := hperm.map _
  have htrans : ∀ a b c : Character,
      locLE a.key.loc b.key.loc = true → locLE b.key.loc c.key.loc = true →
        locLE a.key.loc c.key.loc = true := fun _ _ _ => locLE_trans
  have htot : ∀ a b : Character,
      (locLE a.key.loc b.key.loc || locLE b.key.loc a.key.loc) = true :=
    fun a b => locLE_total _ _
  have hp : ((l₁.map (·.2)).mergeSort fun a b => locLE a.key.loc b.key.loc).Perm
      ((l₂.map (·.2)).mergeSort fun a b => locLE a.key.loc b.key.loc) :=
    ((List.mergeSort_perm _ _).trans hpv).trans (List.mergeSort_perm _ _).symm
  have hs₁ := List.sorted_mergeSort htrans htot (l₁.map (·.2))
  have hs₂ := List.sorted_mergeSort htrans htot (l₂.map (·.2))
  have hsym : ∀ {x y : Character}, x.key.loc ≠ y.key.loc → y.key.loc ≠ x.key.loc :=
    fun h => h.symm
  have hd₁ := (hdist.perm (List.mergeSort_perm (l₁.map (·.2))
    (fun a b => locLE a.key.loc b.key.loc)).symm) hsym
  have hd₂ := ((hdist.perm hpv hsym).perm (List.mergeSort_perm (l₂.map (·.2))
    (fun a b => locLE a.key.loc b.key.loc)).symm) hsym
  haveI : IsAntisymm Character
      (fun a b => locLE a.key.loc b.key.loc = true ∧ a.key.loc ≠ b.key.loc) := by
    constructor
    rintro a b ⟨hab, hne⟩ ⟨hba, _⟩
    exact absurd (locLE_antisymm hab hba) hne
  have heq : ((l₁.map (·.2)).mergeSort fun a b => locLE a.key.loc b.key.loc) =
      ((l₂.map (·.2)).mergeSort fun a b => locLE a.key.loc b.key.loc) :=
    List.eq_of_perm_of_sorted hp (hs₁.and hd₁) (hs₂.and hd₂)
  show ((l₁.map (·.2)).mergeSort fun a b => locLE a.key.loc b.key.loc).flatMap _ =
    ((l₂.map (·.2)).mergeSort fun a b => locLE a.key.loc b.key.loc).flatMap _
  rw [heq]

/-- Witness for C9: two permuted association lists validate to the
same diagnostic sequence. -/
theorem claim_C9_witness :
    Characters.validate ⟨none, [("a", ⟨⟨"a", locW⟩, .mk locW []⟩),
        ("b", ⟨⟨"b", locW2⟩, .mk locW2 []⟩)]⟩
      ⟨⟨none, []⟩, fun _ _ => true, fun _ => []⟩
    = Characters.validate ⟨none, [("b", ⟨⟨"b", locW2⟩, .mk locW2 []⟩),
        ("a", ⟨⟨"a", locW⟩, .mk locW []⟩)]⟩
      ⟨⟨none, []⟩, fun _ _ => true, fun _ => []⟩ := by
  exact claim_C9_validate_deterministic none _ _ _
    (List.Perm.swap _ _ _) (by decide)

/-- A trivial collaborator-data fixture for witnesses. -/
def wData : Everything :=
  ⟨fun _ => none, fun _ => false, fun _ _ => true, fun _ _ => none, fun _ => none,
    fun _ => none, fun _ _ => none, fun _ => none, fun _ _ => none⟩

/-- A fixture scope context rooted in a character scope. -/
def wSc : ScopeContext := ScopeContext.new {ScopeType.character} ⟨"root", locW⟩

/-- C7: in the special trigger `exists`, a value of the form
`scope:name` without a `.` defines the name in the scope context
(via `exists_scope`, with the `scope:` marker stripped) exactly when
the validation is not negated; no diagnostic is emitted either way. -/
theorem claim_C7_exists_defines_scope (n : Nat) (name tok : Token) (data : Everything)
    (sc : ScopeContext) (tooltipped : Tooltipped) (negated : Bool) (maxSev : Severity)
    (hname : name.s = "exists")
    (hpfx : strStartsWith tok.s "scope:" = true)
    (hdot : strContainsChar tok.s '.' = false) :
    match_trigger_bv (n + 2) .special name (.equals .single) (.value tok) data sc
      tooltipped negated maxSev =
    ⟨[], if negated then sc else sc.exists_scope (strDrop tok.s 6) name, false⟩ := by
  have hyes : ¬ tok.s = "yes" := by
    intro h
    rw [h] at hpfx
    exact absurd hpfx (by decide)
  have hno : ¬ tok.s = "no" := by
    intro h
    rw [h] at hpfx
    exact absurd hpfx (by decide)
  simp only [match_trigger_bv, match_trigger_special, Token.is, hname]
  simp [hyes, hno, hpfx, hdot]
  cases negated <;> simp

/-- Witness for C7 at concrete inputs: non-negated defines the scope
name, negated leaves the context untouched. -/
theorem claim_C7_witness :
    match_trigger_bv 7 .special ⟨"exists", locW⟩ (.equals .single)
        (.value ⟨"scope:foo", locW2⟩) wData wSc .yes false .error =
      ⟨[], wSc.exists_scope "foo" ⟨"exists", locW⟩, false⟩
    ∧ match_trigger_bv 7 .special ⟨"exists", locW⟩ (.equals .single)
        (.value ⟨"scope:foo", locW2⟩) wData wSc .yes true .error =
      ⟨[], wSc, false⟩ := by
  constructor
  · exact claim_C7_exists_defines_scope 5 ⟨"exists", locW⟩ ⟨"scope:foo", locW2⟩ wData wSc
      .yes false .error rfl (by decide) (by decide)
  · exact claim_C7_exists_defines_scope 5 ⟨"exists", locW⟩ ⟨"scope:foo", locW2⟩ wData wSc
      .yes true .error rfl (by decide) (by decide)

/-- Helper for C2: the parameter-gathering loop stops at the first
missing parameter when the earlier ones are present as value fields. -/
theorem macroParmGather_missing (b : Block) (pre : List String) (p : String)
    (post : List String)
    (hpre : ∀ q ∈ pre, ∃ t : Token, b.get_field q = some (.value t))
    (hmiss : b.get_field p = none) :
    macroParmGather b (pre ++ p :: post) = .missing [] p := by
  induction pre with
  | nil => simp [macroParmGather, fieldValueWithEv, hmiss]
  | cons q rest ih =>
      obtain ⟨t, ht⟩ := hpre q (List.mem_cons_self q rest)
      have := ih fun r hr => hpre r (List.mem_cons_of_mem q hr)
      simp [macroParmGather, fieldValueWithEv, ht, this]

/-- C2 as amended: a scripted trigger called with a block argument
that omits a declared macro parameter yields exactly one diagnostic,
key `Macro`, severity **Error** (emitted through `err`, not `fatal`),
whose message names the missing parameter, and the macro expansion is
not validated (no recursion). -/
theorem claim_C2_macro_missing_parameter (n : Nat) (key : Token) (cmp : Comparator)
    (b : Block) (data : Everything) (sc : ScopeContext) (tooltipped : Tooltipped)
    (negated : Bool) (maxSev : Severity) (tr : ScriptedTrigger)
    (hget : data.getTrigger key.s = some tr)
    (pre : List String) (p : String) (post : List String)
    (hparms : tr.macroParms = pre ++ p :: post)
    (hpre : ∀ q ∈ pre, ∃ t : Token, b.get_field q = some (.value t))
    (hmiss : b.get_field p = none) :
    validate_trigger_key_bv (n + 1) key cmp (.block b) data sc tooltipped negated maxSev =
      ⟨[errEv b.loc .macroErr s!"this scripted trigger needs parameter {p}"], sc, false⟩ := by
  have hg := macroParmGather_missing b pre p post hpre hmiss
  have hnonempty : ¬ (pre ++ p :: post).isEmpty = true := by
    simp
  simp only [validate_trigger_key_bv, hget, hparms, hnonempty, hg]
  simp

/-- The scripted trigger `foo` of the C2 scenario: parameters `A` and
`B`. -/
def c2Data : Everything :=
  { wData with getTrigger := fun k => if k = "foo" then some ⟨["A", "B"]⟩ else none }

/-- The call block `{ A = x }` of the C2 scenario. -/
def c2Block : Block := .mk locW [.field ⟨"A", locW⟩ (.equals .single) (.value ⟨"x", locW⟩)]

/-- C2 counterexample: at the claim's own scenario (`foo` declares
`A`, `B`; the call passes only `A`) the emitted diagnostic has
severity Error — the code uses `err`, not `fatal` — so the claimed
Fatal severity is wrong; everything else (exactly one `Macro`
diagnostic naming `B`, no recursion into the expansion) holds. -/
theorem claim_C2_counterexample :
    (validate_trigger_key_bv 9 ⟨"foo", locW2⟩ (.equals .single) (.block c2Block) c2Data
      wSc .yes false .error).ev =
      [.diag ⟨.error, .macroErr, "this scripted trigger needs parameter B", locW,
        none, none⟩]
    ∧ ¬ Severity.error = Severity.fatal := by
  exact ⟨by decide, by decide⟩

/-- Witness for the amended C2: the theorem applied at the claim's
scenario. -/
theorem claim_C2_witness :
    validate_trigger_key_bv 9 ⟨"foo", locW2⟩ (.equals .single) (.block c2Block) c2Data
      wSc .yes false .error =
      ⟨[errEv locW .macroErr "this scripted trigger needs parameter B"], wSc, false⟩ := by
  have h := claim_C2_macro_missing_parameter 8 ⟨"foo", locW2⟩ (.equals .single) c2Block
    c2Data wSc .yes false .error ⟨["A", "B"]⟩ rfl ["A"] "B" [] rfl
    (fun q hq => by
      simp at hq
      subst hq
      exact ⟨⟨"x", locW⟩, rfl⟩)
    rfl
  rw [h]
  decide

/-- Helper: `handle_argument` on a key without a parenthesis is the
identity, at any fuel. -/
theorem handle_argument_no_paren (fuel : Nat) (key : Token) (data : Everything)
    (sc : ScopeContext) (h : strSplitOnce key.s '(' = none) :
    handle_argument fuel key data sc = (key, none, []) := by
  cases fuel with
  | zero => rfl
  | succ n => simp [handle_argument, h]

/-- Helper: expecting `Scopes::all` on a context whose current scope
set is nonempty emits nothing and leaves the context unchanged. -/
theorem expectEv_all (sc : ScopeContext) (tok : Token) (h : ¬ sc.scopes = ∅) :
    expectEv sc scopesAll tok = ([], sc) := by
  simp only [expectEv, ScopeContext.expect]
  rw [if_neg (show ¬ scopesAll = scopesNone by decide)]
  rw [if_neg (show ¬ sc.st.current.scopes ∩ scopesAll = ∅ from by
    simpa [scopesAll, ScopeContext.scopes] using h)]
  simp only [scopesAll, Finset.inter_univ]
  rfl

/-- Helper: closing the frame opened by `open_builder` restores the
context. -/
theorem close_open_builder (sc : ScopeContext) : sc.open_builder.close = sc := rfl

/-- Helper: `validate_trigger_internal` treats the callers `"not"` and
`""` identically — neither is in any of the caller-dispatched sets
(`trigger_if` family, `custom_description`/`custom_tooltip`,
`modifier`, `calc_true_if`, the tooltip-complexity connectives). -/
theorem vti_caller_not (m : Nat) (in_list : Bool) (b : Block) (data : Everything)
    (sc : ScopeContext) (tooltipped : Tooltipped) (negated : Bool) (maxSev : Severity) :
    validate_trigger_internal m "not" in_list b data sc tooltipped negated maxSev =
    validate_trigger_internal m "" in_list b data sc tooltipped negated maxSev := by
  cases m with
  | zero => rfl
  | succ k =>
      simp [validate_trigger_internal, isTIF, tooltipComplexityEvents, claimedName]

/-- Helper: evaluating one `not = { ... }` wrapper.  Resolving the key
`not` looks it up in the scripted-trigger store, the script values,
the scope-transition table and the trigger table (the hypotheses state
what the real tables say about `not`), opens and closes a builder
around a no-op `expect(Scopes::all)`, and dispatches to the `Control`
branch of `match_trigger_bv`, which flips `negated`. -/
theorem vti_wrap_not (k : Nat) (nl loc0 : Loc) (inner : Block) (data : Everything)
    (sc : ScopeContext) (tooltipped : Tooltipped) (negated : Bool) (maxSev : Severity)
    (hscripted : data.getTrigger "not" = none)
    (hsv : data.scriptValueExists "not" = false)
    (hs2s : ∀ s, data.scopeToScope "not" s = none)
    (htrig : data.scopeTrigger "not" = some (scopesAll, .control))
    (hne : ¬ sc.scopes = ∅) :
    validate_trigger_internal (k + 3) "" false
        (.mk loc0 [.field ⟨"not", nl⟩ (.equals .single) (.block inner)]) data sc
        tooltipped negated maxSev =
      validate_trigger_internal k "not" false inner data sc tooltipped (!negated) maxSev := by
  have h1 : strSplitOnce "not" '_' = none := by decide
  have h2 : strSplitOnce "not" ':' = none := by decide
  have h3 : strSplitOnce "not" '(' = none := by decide
  have h4 : strSplit "not" '.' = ["not"] := by decide
  have h5 : strToLower "not" = "not" := by decide
  have h6 : isNumericStr "not" = false := by decide
  have h7 : ¬ scopesAll = scopesNone := by decide
  have hob : (sc.open_builder).scopes = sc.scopes := rfl
  have hexp : expectEv sc.open_builder scopesAll ⟨"not", nl⟩ = ([], sc.open_builder) :=
    expectEv_all _ _ (by simpa [hob] using hne)
  have hha : handle_argument (k + 1) ⟨"not", nl⟩ data sc = (⟨"not", nl⟩, none, []) :=
    handle_argument_no_paren _ _ _ _ (by simpa using h3)
  show validate_trigger_internal ((k + 2) + 1) "" false
      (.mk loc0 [.field ⟨"not", nl⟩ (.equals .single) (.block inner)]) data sc
      tooltipped negated maxSev = _
  simp only [validate_trigger_internal]
  simp only [fieldsNamed, Block.iter_fields, Block.items, Block.loc, List.filterMap,
    List.filter, banFieldEvents, validate_iterator_fields_model,
    validate_ifelse_sequence, tooltipComplexityEvents, claimedName, isTIF, Token.is,
    VRes.append, List.foldl, List.map, List.flatMap]
  simp [h1, h5, hscripted, hsv, htrig, h6, Token.is_number]
  show validate_trigger_key_bv ((k + 1) + 1) ⟨"not", nl⟩ (.equals .single) (.block inner)
      data sc tooltipped negated maxSev = _
  simp only [validate_trigger_key_bv, hscripted, hha]
  simp only [Token.is_number]
  simp only [show Token.s ⟨"not", nl⟩ = "not" from rfl, h6, Bool.false_eq_true,
    if_false, Token.splitParts, h4, List.map, chainLoopKeyBv, h2]
  simp [h5, hsv, hs2s, h7, htrig, hexp, close_open_builder]
  show match_trigger_bv (k + 1) .control ⟨"not", nl⟩ (.equals .single) (.block inner)
      data sc tooltipped negated maxSev = _
  simp only [match_trigger_bv]
  simp [h5]

/-- C4: the `Control` branch of `match_trigger_bv` passes the negation
of the incoming `negated` flag to the recursive call exactly when the
keyword's lower-cased name is `not`, `nand`, `nor` or `all_false`, and
passes it unchanged for every other control keyword; consequently, for
every trigger block `T` (and the trigger tables' actual entries for
`not`, stated as hypotheses), validating `not = { not = { T } }`
produces the same events, scope context and side-effect bit as
validating `T` directly, at every fuel. -/
theorem claim_C4_double_negation (n : Nat) (data : Everything) (sc : ScopeContext)
    (tooltipped : Tooltipped) (negated : Bool) (maxSev : Severity) (T : Block)
    (nl1 nl2 loc0 loc1 : Loc)
    (hscripted : data.getTrigger "not" = none)
    (hsv : data.scriptValueExists "not" = false)
    (hs2s : ∀ s, data.scopeToScope "not" s = none)
    (htrig : data.scopeTrigger "not" = some (scopesAll, .control))
    (hne : ¬ sc.scopes = ∅) :
    (∀ (m : Nat) (name : Token) (b : Block) (sc' : ScopeContext) (ttp : Tooltipped)
        (neg : Bool),
      (strToLower name.s = "all_false" ∨ strToLower name.s = "not" ∨
        strToLower name.s = "nand" ∨ strToLower name.s = "nor") →
      match_trigger_bv (m + 1) .control name (.equals .single) (.block b) data sc' ttp neg
          maxSev =
        validate_trigger_internal m (strToLower name.s) false b data sc' ttp (!neg) maxSev)
    ∧ (∀ (m : Nat) (name : Token) (b : Block) (sc' : ScopeContext) (ttp : Tooltipped)
        (neg : Bool),
      ¬ (strToLower name.s = "all_false" ∨ strToLower name.s = "not" ∨
          strToLower name.s = "nand" ∨ strToLower name.s = "nor") →
      match_trigger_bv (m + 1) .control name (.equals .single) (.block b) data sc' ttp neg
          maxSev =
        validate_trigger_internal m (strToLower name.s) false b data sc'
          (if strToLower name.s = "custom_description" then .no else ttp) neg maxSev)
    ∧ validate_trigger_internal (n + 6) "" false
        (.mk loc0 [.field ⟨"not", nl1⟩ (.equals .single)
          (.block (.mk loc1 [.field ⟨"not", nl2⟩ (.equals .single) (.block T)]))]) data sc
        tooltipped negated maxSev
      = validate_trigger_internal n "" false T data sc tooltipped negated maxSev := by
  refine ⟨?_, ?_, ?_⟩
  · intro m name b sc' ttp neg hset
    rcases hset with h | h | h | h <;> simp [match_trigger_bv, h]
  · intro m name b sc' ttp neg hset
    push_neg at hset
    obtain ⟨h1, h2, h3, h4⟩ := hset
    simp [match_trigger_bv, h1, h2, h3, h4]
  · have e1 := vti_wrap_not (n + 3) nl1 loc0
      (.mk loc1 [.field ⟨"not", nl2⟩ (.equals .single) (.block T)]) data sc tooltipped
      negated maxSev hscripted hsv hs2s htrig hne
    have hfuel : n + 6 = (n + 3) + 3 := by omega
    rw [hfuel, e1, vti_caller_not]
    have e2 := vti_wrap_not n nl2 loc1 T data sc tooltipped (!negated) maxSev hscripted
      hsv hs2s htrig hne
    rw [e2, Bool.not_not, vti_caller_not]

/-- The trigger table of the C4 witness: only `not` is defined, as a
Control trigger accepting all scopes. -/
def c4Data : Everything :=
  { wData with scopeTrigger := fun k => if k = "not" then some (scopesAll, .control)
      else none }

/-- A small concrete trigger block for the C4 witness. -/
def c4T : Block := .mk locW2 [.field ⟨"wibble", locW2⟩ (.equals .single) (.value ⟨"yes", locW2⟩)]

/-- Witness for C4 at concrete inputs: the double wrapper validates to
the same result as the plain block. -/
theorem claim_C4_witness :
    validate_trigger_internal 10 "" false
        (.mk locW [.field ⟨"not", locW⟩ (.equals .single)
          (.block (.mk locW [.field ⟨"not", locW⟩ (.equals .single) (.block c4T)]))]) c4Data
        wSc .yes false .error
      = validate_trigger_internal 4 "" false c4T c4Data wSc .yes false .error := by
  exact (claim_C4_double_negation 4 c4Data wSc .yes false .error c4T locW locW locW locW
    rfl rfl (fun _ => rfl) rfl (by decide)).2.2

/-- Helper: a string that splits at `_` differs from one that does
not. -/
theorem ne_of_split_none {s t : String} {p : String × String}
    (h : strSplitOnce s '_' = some p) (ht : strSplitOnce t '_' = none) : ¬ s = t := by
  intro he
  rw [he, ht] at h
  cases h

/-- Helper: strings that split at `_` with different first components
differ. -/
theorem ne_of_split_first {s t : String} {p q r u : String}
    (h : strSplitOnce s '_' = some (p, q)) (ht : strSplitOnce t '_' = some (r, u))
    (hpr : ¬ p = r) : ¬ s = t := by
  intro he
  rw [he, ht] at h
  simp only [Option.some.injEq, Prod.mk.injEq] at h
  exact hpr h.1.symm

/-- C5: in trigger validation, a key of the form `{itType}_{itName}`
that resolves in the iterator table is dispatched by the unknown-field
loop: for the prefixes `every`, `ordered`, `random` exactly one
diagnostic "cannot use `{itType}_` list in a trigger" is emitted and
the block is not recursed into (the result carries no other events,
the scope context is unchanged, and the side-effect bit is false); for
`any` the validator calls `expect(inscopes)` with the key as reason,
opens the iterator's outscope, recursively validates the block with
the in-list flag set, and closes the scope. -/
theorem claim_C5_trigger_iterators (n : Nat) (key : Token) (cmp : Comparator) (bv : BV)
    (bloc : Loc) (data : Everything) (sc : ScopeContext) (tooltipped : Tooltipped)
    (negated : Bool) (maxSev : Severity) (itType itName : String) (ins outs : Scopes)
    (hsplit : strSplitOnce key.s '_' = some (itType, itName))
    (hres : data.scopeIterator itName sc = some (ins, outs)) :
    ((itType = "every" ∨ itType = "ordered" ∨ itType = "random") →
      validate_trigger_internal (n + 1) "" false (.mk bloc [.field key cmp bv]) data sc
          tooltipped negated maxSev =
        ⟨[errEv key.loc .validation s!"cannot use `{itType}_` list in a trigger"], sc,
          false⟩)
    ∧ (itType = "any" → ∀ bb : Block, bv = .block bb →
      validate_trigger_internal (n + 1) "" false (.mk bloc [.field key cmp bv]) data sc
          tooltipped negated maxSev =
        ⟨(expectEv sc ins key).1 ++ precheck_iterator_fields_model bb
            ++ (validate_trigger_internal n (strToLower itName) true bb data
                ((expectEv sc ins key).2.open_scope outs key) tooltipped negated maxSev).ev,
          (validate_trigger_internal n (strToLower itName) true bb data
            ((expectEv sc ins key).2.open_scope outs key) tooltipped negated maxSev).sc.close,
          (validate_trigger_internal n (strToLower itName) true bb data
            ((expectEv sc ins key).2.open_scope outs key) tooltipped negated
            maxSev).side⟩) := by
  have nLimit := ne_of_split_none hsplit (by decide : strSplitOnce "limit" '_' = none)
  have nFilter := ne_of_split_none hsplit (by decide : strSplitOnce "filter" '_' = none)
  have nCount := ne_of_split_none hsplit (by decide : strSplitOnce "count" '_' = none)
  have nPercent := ne_of_split_none hsplit (by decide : strSplitOnce "percent" '_' = none)
  have nPosition := ne_of_split_none hsplit
    (by decide : strSplitOnce "position" '_' = none)
  have nMin := ne_of_split_none hsplit (by decide : strSplitOnce "min" '_' = none)
  have nMax := ne_of_split_none hsplit (by decide : strSplitOnce "max" '_' = none)
  have nText := ne_of_split_none hsplit (by decide : strSplitOnce "text" '_' = none)
  have nSubject := ne_of_split_none hsplit (by decide : strSplitOnce "subject" '_' = none)
  have nObject := ne_of_split_none hsplit (by decide : strSplitOnce "object" '_' = none)
  have nValue := ne_of_split_none hsplit (by decide : strSplitOnce "value" '_' = none)
  have nAdd := ne_of_split_none hsplit (by decide : strSplitOnce "add" '_' = none)
  have nFactor := ne_of_split_none hsplit (by decide : strSplitOnce "factor" '_' = none)
  have nDesc := ne_of_split_none hsplit (by decide : strSplitOnce "desc" '_' = none)
  have nDESC := ne_of_split_none hsplit (by decide : strSplitOnce "DESC" '_' = none)
  have nTrigger := ne_of_split_none hsplit (by decide : strSplitOnce "trigger" '_' = none)
  have nAmount := ne_of_split_none hsplit (by decide : strSplitOnce "amount" '_' = none)
  constructor
  · intro h3
    have hito : ¬ itType = "order" := by
      rcases h3 with h | h | h <;> (subst h; decide)
    have hitt : ¬ itType = "trigger" := by
      rcases h3 with h | h | h <;> (subst h; decide)
    have hAny : ¬ itType = "any" := by
      rcases h3 with h | h | h <;> (subst h; decide)
    have nOB := ne_of_split_first hsplit
      (by decide : strSplitOnce "order_by" '_' = some ("order", "by")) hito
    have nTI := ne_of_split_first hsplit
      (by decide : strSplitOnce "trigger_if" '_' = some ("trigger", "if")) hitt
    have nTEI := ne_of_split_first hsplit
      (by decide : strSplitOnce "trigger_else_if" '_' = some ("trigger", "else_if")) hitt
    have nTE := ne_of_split_first hsplit
      (by decide : strSplitOnce "trigger_else" '_' = some ("trigger", "else")) hitt
    have h4 : itType = "any" ∨ itType = "ordered" ∨ itType = "every" ∨ itType = "random" := by
      rcases h3 with h | h | h <;> simp [h]
    simp only [validate_trigger_internal]
    simp [fieldsNamed, Block.iter_fields, Block.items, Block.loc, banFieldEvents,
      validate_iterator_fields_model, validate_ifelse_sequence, tooltipComplexityEvents,
      claimedName, isTIF, Token.is, VRes.append, hsplit, hres, h4, hAny,
      nLimit, nFilter, nCount, nPercent, nOB, nPosition, nMin, nMax, nText, nSubject,
      nObject, nValue, nAdd, nFactor, nDesc, nDESC, nTrigger, nAmount, nTI, nTEI, nTE]
    rcases h3 with h | h | h <;> subst h <;> simp
  · intro h3 bb hbv
    subst h3
    subst hbv
    have hito : ¬ "any" = "order" := by decide
    have hitt : ¬ "any" = "trigger" := by decide
    have nOB := ne_of_split_first hsplit
      (by decide : strSplitOnce "order_by" '_' = some ("order", "by")) hito
    have nTI := ne_of_split_first hsplit
      (by decide : strSplitOnce "trigger_if" '_' = some ("trigger", "if")) hitt
    have nTEI := ne_of_split_first hsplit
      (by decide : strSplitOnce "trigger_else_if" '_' = some ("trigger", "else_if")) hitt
    have nTE := ne_of_split_first hsplit
      (by decide : strSplitOnce "trigger_else" '_' = some ("trigger", "else")) hitt
    simp only [validate_trigger_internal]
    simp [fieldsNamed, Block.iter_fields, Block.items, Block.loc, banFieldEvents,
      validate_iterator_fields_model, validate_ifelse_sequence, tooltipComplexityEvents,
      claimedName, isTIF, Token.is, VRes.append, hsplit, hres,
      nLimit, nFilter, nCount, nPercent, nOB, nPosition, nMin, nMax, nText, nSubject,
      nObject, nValue, nAdd, nFactor, nDesc, nDESC, nTrigger, nAmount, nTI, nTEI, nTE]

/-- The iterator table of the C5 witness: `child` iterates characters
from a character scope. -/
def c5Data : Everything :=
  { wData with scopeIterator := fun k _ =>
      if k = "child" then some ({ScopeType.character}, {ScopeType.character}) else none }

/-- Witness for C5: `every_child` in a trigger gives exactly the one
diagnostic with no recursion; `any_child` expects, opens the scope,
recurses (into an empty block) and closes. -/
theorem claim_C5_witness :
    validate_trigger_internal 9 "" false
        (.mk locW [.field ⟨"every_child", locW2⟩ (.equals .single) (.block (.mk locW []))])
        c5Data wSc .yes false .error =
      ⟨[errEv locW2 .validation "cannot use `every_` list in a trigger"], wSc, false⟩
    ∧ validate_trigger_internal 9 "" false
        (.mk locW [.field ⟨"any_child", locW2⟩ (.equals .single) (.block (.mk locW []))])
        c5Data wSc .yes false .error =
      ⟨(expectEv wSc {ScopeType.character} ⟨"any_child", locW2⟩).1
          ++ precheck_iterator_fields_model (.mk locW [])
          ++ (validate_trigger_internal 8 (strToLower "child") true (.mk locW []) c5Data
              ((expectEv wSc {ScopeType.character} ⟨"any_child", locW2⟩).2.open_scope
                {ScopeType.character} ⟨"any_child", locW2⟩) .yes false .error).ev,
        (validate_trigger_internal 8 (strToLower "child") true (.mk locW []) c5Data
          ((expectEv wSc {ScopeType.character} ⟨"any_child", locW2⟩).2.open_scope
            {ScopeType.character} ⟨"any_child", locW2⟩) .yes false .error).sc.close,
        (validate_trigger_internal 8 (strToLower "child") true (.mk locW []) c5Data
          ((expectEv wSc {ScopeType.character} ⟨"any_child", locW2⟩).2.open_scope
            {ScopeType.character} ⟨"any_child", locW2⟩) .yes false .error).side⟩ := by
  constructor
  · have h := (claim_C5_trigger_iterators 8 ⟨"every_child", locW2⟩ (.equals .single)
      (.block (.mk locW [])) locW c5Data wSc .yes false .error "every" "child"
      {ScopeType.character} {ScopeType.character} (by decide) rfl).1 (by decide)
    rw [h]
    decide
  · exact (claim_C5_trigger_iterators 8 ⟨"any_child", locW2⟩ (.equals .single)
      (.block (.mk locW [])) locW c5Data wSc .yes false .error "any" "child"
      {ScopeType.character} {ScopeType.character} (by decide) rfl).2 rfl (.mk locW []) rfl

/-- C6: after the part-resolution loop of `validate_target_ok_this`
completes, the final check compares the expected scope set with the
final inferred set joined with `Scopes::None`: on empty intersection
exactly one `Scopes` diagnostic is emitted saying the last part
produces the inferred scopes but the expected ones were wanted, with a
secondary location at the reason token exactly when that token's
content or location differs from the last part's; on nonempty
intersection no diagnostic is added. -/
theorem claim_C6_target_scope_check (n : Nat) (token : Token) (data : Everything)
    (sc : ScopeContext) (outscopes : Scopes)
    (hnum : token.is_number = false)
    (hnp : strSplitOnce token.s '(' = none)
    (ev : List Event) (scD : ScopeContext)
    (hloop : chainLoopTarget data outscopes none (token.splitParts '.') true
      sc.open_builder = .done ev scD)
    (part because : Token) (finalScopes : Scopes)
    (hpart : part = (token.splitParts '.').getLast?.getD token)
    (hbec : because = scD.scopes_reason.2)
    (hfin : finalScopes = scD.scopes_reason.1) :
    validate_target_ok_this (n + 1) token data sc outscopes =
      (ev ++
        (if ¬ outscopes.intersects (finalScopes ∪ scopesNone) then
          if part.s = because.s ∧ part.loc = because.loc then
            [oldWarnEv part.loc .scopes
              s!"`{part.s}` produces {finalScopes.display} but expected {outscopes.display}"]
          else
            [Event.diag ⟨.warning, .scopes,
              s!"`{part.s}` produces {finalScopes.display} but expected {outscopes.display}",
              part.loc, some (because.loc, s!"scope was {reasonMsg because}"), none⟩]
        else []),
        scD.close) := by
  subst hpart
  subst hbec
  subst hfin
  have hha : handle_argument n token data sc = (token, none, []) :=
    handle_argument_no_paren _ _ _ _ hnp
  simp only [validate_target_ok_this, hnum, Bool.false_eq_true, if_false, hha, hloop,
    List.nil_append]

/-- The transition table of the C6 witness: `mother` goes from a
character to a character. -/
def c6Data : Everything :=
  { wData with scopeToScope := fun k _ =>
      if k = "mother" then some ({ScopeType.character}, {ScopeType.character}) else none }

/-- The context after resolving `mother` from the witness context: the
builder frame is open and the current entry is a character inferred
from the `mother` token. -/
def c6ScD : ScopeContext :=
  ⟨⟨⟨{ScopeType.character}, ⟨"mother", locW2⟩⟩, [],
      ⟨{ScopeType.character}, ⟨"root", locW⟩⟩, [], []⟩,
    [(true, ⟨⟨{ScopeType.character}, ⟨"root", locW⟩⟩, [],
      ⟨{ScopeType.character}, ⟨"root", locW⟩⟩, [], []⟩)]⟩

/-- The context after resolving `root` from the witness context: the
current entry is the root entry, whose reason token is located
elsewhere. -/
def c6ScDRoot : ScopeContext :=
  ⟨⟨⟨{ScopeType.character}, ⟨"root", locW⟩⟩, [],
      ⟨{ScopeType.character}, ⟨"root", locW⟩⟩, [], []⟩,
    [(true, ⟨⟨{ScopeType.character}, ⟨"root", locW⟩⟩, [],
      ⟨{ScopeType.character}, ⟨"root", locW⟩⟩, [], []⟩)]⟩

/-- Witness for C6: `mother` in a character context against an
expected landed-title scope yields the one-location diagnostic (part
and reason coincide); `root`, whose reason token sits at the root
definition, yields the two-location diagnostic. -/
theorem claim_C6_witness :
    validate_target_ok_this 6 ⟨"mother", locW2⟩ c6Data wSc {ScopeType.landedTitle} =
      ([oldWarnEv locW2 .scopes "`mother` produces character but expected landed_title"],
        wSc)
    ∧ validate_target_ok_this 6 ⟨"root", locW2⟩ c6Data wSc {ScopeType.landedTitle} =
      ([Event.diag ⟨.warning, .scopes,
          "`root` produces character but expected landed_title", locW2,
          some (locW, "scope was set by root"), none⟩], wSc) := by
  constructor
  · have h := claim_C6_target_scope_check 5 ⟨"mother", locW2⟩ c6Data wSc
      {ScopeType.landedTitle} (by decide) (by decide) [] c6ScD (by decide)
      ⟨"mother", locW2⟩ ⟨"mother", locW2⟩ {ScopeType.character} (by decide) rfl rfl
    rw [h]
    decide
  · have h := claim_C6_target_scope_check 5 ⟨"root", locW2⟩ c6Data wSc
      {ScopeType.landedTitle} (by decide) (by decide) [] c6ScDRoot (by decide)
      ⟨"root", locW2⟩ ⟨"root", locW⟩ {ScopeType.character} (by decide) rfl rfl
    rw [h]
    decide

end Tiger
